import Mathlib

/-!
Verification development for the wgMicro_api repository: a shallow embedding of
the WireGuard peer-management microservice (dump parsing, peer create / rotate
orchestration, client config assembly, HTTP error mapping) together with proofs
about the embedded definitions.

Modelling conventions:
  - Go strings are modelled by `String`; the byte-level scanning helpers of the
    Go standard library (`strings.Fields`, `strings.Split`, `strings.TrimSpace`)
    are translated to structurally recursive functions over `List Char` so that
    concrete runs reduce inside the kernel.  `Char.isWhitespace` covers the
    ASCII whitespace that `unicode.IsSpace` recognises on dump output.
  - Go `int` / `int64` fields are `Int`, `uint64` counters are `Nat`.  The Go
    parse functions return their zero value on error, which the code then uses;
    numeric overflow of 64-bit integers is not modelled (dump values fit).
  - fallible Go calls return `Except WgErr`; a Go `(value, err)` pair whose two
    components can be set independently (rotation!) is an `Option × Option`.
  - the external `wg` utility and the kernel peer table are not part of the
    repository; they are modelled from the spec (section 4.1) as a list of peer
    records with upsert / remove semantics, plus failure-injecting variants.
-/

namespace WgMicro

/-! ## Go string helpers over character lists -/

/-- ASCII whitespace test used by `strings.Fields` / `strings.TrimSpace` on
dump output (space, tab, newline, carriage return). -/
def isWs (c : Char) : Bool :=
  c = ' ' || c = '\t' || c = '\n' || c = '\r'

/-- Translation of `strings.Split(s, sep)` for a one-character separator:
splitting the empty string yields one empty field, matching Go. -/
def splitOnChar (sep : Char) : List Char → List (List Char)
  | [] => [[]]
  | c :: cs =>
    if c = sep then [] :: splitOnChar sep cs
    else match splitOnChar sep cs with
      | [] => [[c]]
      | w :: ws => (c :: w) :: ws

/-- Accumulator loop behind `goFields` (the translation of `strings.Fields`):
`acc` holds the characters of the current field in reverse. -/
def fieldsGo : List Char → List Char → List (List Char)
  | acc, [] => if acc = [] then [] else [acc.reverse]
  | acc, c :: cs =>
    if isWs c then
      if acc = [] then fieldsGo [] cs else acc.reverse :: fieldsGo [] cs
    else fieldsGo (c :: acc) cs

/-- Translation of `strings.Fields`: split around runs of whitespace, never
returning an empty field. -/
def goFields (l : List Char) : List (List Char) :=
  fieldsGo [] l

/-- Translation of `strings.TrimSpace`. -/
def trimChars (l : List Char) : List Char :=
  ((l.dropWhile isWs).reverse.dropWhile isWs).reverse

/-- Translation of `strings.TrimSpace` at `String` level. -/
def goTrim (s : String) : String :=
  String.mk (trimChars s.data)

/-- Digit-string parser behind `strconv.ParseUint(s, 10, 64)`: `none` on the
empty string or any non-digit character (Go then reports an error and the
callers substitute 0). -/
def parseNatChars (l : List Char) : Option Nat :=
  if l = [] then none
  else l.foldl
    (fun acc c =>
      match acc with
      | none => none
      | some n => if c.isDigit then some (n * 10 + (c.toNat - '0'.toNat)) else none)
    (some 0)

/-- Translation of `strconv.ParseInt(s, 10, 64)` / `strconv.Atoi`: an optional
leading sign followed by digits. -/
def parseIntChars (l : List Char) : Option Int :=
  match l with
  | '-' :: rest => (parseNatChars rest).map (fun n => -(n : Int))
  | '+' :: rest => (parseNatChars rest).map (fun n => (n : Int))
  | _ => (parseNatChars l).map (fun n => (n : Int))

/-! ## Peer model and error taxonomy -/

namespace domain

/-- Translation of `domain.Config` (src/internal/config/config.go, the typed
peer record mirrored from `wg show <iface> dump`); Go zero values are the
defaults. -/
structure Config where
  privateKey : String := ""
  publicKey : String := ""
  preSharedKey : String := ""
  endpoint : String := ""
  allowedIps : List String := []
  latestHandshake : Int := 0
  receiveBytes : Nat := 0
  transmitBytes : Nat := 0
  persistentKeepalive : Int := 0
deriving DecidableEq

/-- Translation of `domain.ErrorResponse`: the uniform JSON error body. -/
structure ErrorResponse where
  error : String
deriving DecidableEq

end domain

/-- Discriminator for the closed error taxonomy.  Go discriminates with
`errors.Is` against the sentinel errors `repository.ErrPeerNotFound` and
`repository.ErrWgTimeout`; wrapping with `fmt.Errorf(..., %w)` preserves the
sentinel, which the `kind` field models.  Errors built with `errors.New` or a
`fmt.Errorf` without `%w` match no sentinel. -/
inductive ErrKind where
  | peerNotFound
  | wgTimeout
  | execFailed
  | otherErr
deriving DecidableEq

/-- An error value: the sentinel it unwraps to (if any) plus its message. -/
structure WgErr where
  kind : ErrKind
  msg : String
deriving DecidableEq

/-- Translation of `fmt.Errorf(ctx ++ "%w", e)`: prepends context, keeps the
sentinel chain. -/
def wrapErr (pre : String) (e : WgErr) : WgErr :=
  ⟨e.kind, pre ++ e.msg⟩

/-- Translation of `fmt.Errorf(pre ++ "%w" ++ post, e)`. -/
def wrapErrAround (pre post : String) (e : WgErr) : WgErr :=
  ⟨e.kind, pre ++ e.msg ++ post⟩

/-- The sentinel `repository.ErrPeerNotFound`. -/
def errPeerNotFound : WgErr := ⟨.peerNotFound, "peer not found"⟩

/-- The sentinel `repository.ErrWgTimeout`. -/
def errWgTimeout : WgErr := ⟨.wgTimeout, "wireguard command timed out"⟩

/-! ## Utility gateway: dump parsing (src/unnamed/part_006, WGRepository) -/

namespace WGRepository

open domain

/-- Translation of the per-peer parse in `WGRepository.ListConfigs`
(src/unnamed/part_006:189-249): extract the eight whitespace-separated fields,
map the literal `(none)` in the preshared-key / endpoint / allowed-ips
positions to the empty value, map `off` in the keepalive position to 0, and
substitute 0 on any numeric parse failure. -/
def parsePeerLine (line : List Char) : Config :=
  let parts := goFields line
  { publicKey := String.mk (parts.getD 0 [])
    preSharedKey := if parts.getD 1 [] = "(none)".data then "" else String.mk (parts.getD 1 [])
    endpoint := if parts.getD 2 [] = "(none)".data then "" else String.mk (parts.getD 2 [])
    allowedIps :=
      if parts.getD 3 [] ≠ "(none)".data then (splitOnChar ',' (parts.getD 3 [])).map String.mk
      else []
    latestHandshake := (parseIntChars (parts.getD 4 [])).getD 0
    receiveBytes := (parseNatChars (parts.getD 5 [])).getD 0
    transmitBytes := (parseNatChars (parts.getD 6 [])).getD 0
    persistentKeepalive :=
      if parts.getD 7 [] ≠ "off".data then (parseIntChars (parts.getD 7 [])).getD 0 else 0 }

/-- Translation of the line loop of `WGRepository.ListConfigs`
(src/unnamed/part_006:160-250): empty lines are skipped without consuming the
first-line flag; the first non-empty line is dropped unless it has exactly 8
fields (the interface header has 4); later lines with fewer than 8 fields are
logged and skipped. -/
def parseLines : Bool → List (List Char) → List Config
  | _, [] => []
  | isFirstLine, line :: rest =>
    if line = [] then parseLines isFirstLine rest
    else if isFirstLine ∧ (goFields line).length ≠ 8 then parseLines false rest
    else if (goFields line).length < 8 then parseLines false rest
    else parsePeerLine line :: parseLines false rest

/-- Translation of `WGRepository.ListConfigs` (src/unnamed/part_006:128-253)
applied to the combined output of `wg show <iface> dump`: trim, return no peers
on empty output, otherwise split into lines and parse. -/
def ListConfigs (out : String) : List Config :=
  let outputStr := trimChars out.data
  if outputStr = [] then []
  else parseLines true (splitOnChar '\n' outputStr)

end WGRepository

namespace WGRepositoryOld

open domain

/-- Translation of the per-peer parse of the earlier revision
(src/internal/repository/wg.go:61-87): fields are taken starting at `idx`
(1 if the first column repeated the interface name), `(none)` is NOT mapped,
allowed-ips are always comma-split, keepalive `off` maps to 0. -/
def parsePeerAt (idx : Nat) (parts : List (List Char)) : Config :=
  { publicKey := String.mk (parts.getD idx [])
    preSharedKey := String.mk (parts.getD (idx + 1) [])
    endpoint := String.mk (parts.getD (idx + 2) [])
    allowedIps := (splitOnChar ',' (parts.getD (idx + 3) [])).map String.mk
    latestHandshake := (parseIntChars (parts.getD (idx + 4) [])).getD 0
    receiveBytes := (parseNatChars (parts.getD (idx + 5) [])).getD 0
    transmitBytes := (parseNatChars (parts.getD (idx + 6) [])).getD 0
    persistentKeepalive :=
      if parts.getD (idx + 7) [] ≠ "off".data then (parseIntChars (parts.getD (idx + 7) [])).getD 0
      else 0 }

/-- Translation of the line loop of the earlier `WGRepository.ListConfigs`
revision (src/internal/repository/wg.go:44-89).  The Go code reads `parts[0]`
before any length check; on a line with no fields (an empty line, in
particular the single empty line produced by splitting empty output) that
index is out of range and the goroutine panics, modelled by `none`. -/
def parseLinesOld (iface : String) : List (List Char) → Option (List Config)
  | [] => some []
  | line :: rest =>
    match goFields line with
    | [] => none
    | p0 :: _ =>
      let parts := goFields line
      let idx := if p0 = iface.data then 1 else 0
      if parts.length < idx + 8 then parseLinesOld iface rest
      else (parseLinesOld iface rest).map (fun cs => parsePeerAt idx parts :: cs)

/-- Translation of the earlier `WGRepository.ListConfigs` revision
(src/internal/repository/wg.go:37-92): trim and split, with NO guard for empty
output before the line loop. -/
def ListConfigs (iface : String) (out : String) : Option (List Config) :=
  parseLinesOld iface (splitOnChar '\n' (trimChars out.data))

end WGRepositoryOld

/-! ## Utility gateway: command construction (src/unnamed/part_006) -/

namespace WGRepository

open domain

/-- Translation of the argument list built by `WGRepository.CreateConfig`
(src/unnamed/part_006:281-353).  With a preshared key the key itself is piped
on stdin and `allowed-ips` is appended ONLY when the list is non-empty; without
a preshared key an empty list is expressed as an explicit empty-string
argument. -/
def CreateConfigArgs (iface : String) (cfg : Config) : List String :=
  let args := ["set", iface, "peer", cfg.publicKey]
  if cfg.preSharedKey ≠ "" then
    let a1 := args ++ ["preshared-key", "/dev/stdin"]
    let a2 :=
      if cfg.allowedIps.length > 0 then a1 ++ ["allowed-ips", String.intercalate "," cfg.allowedIps]
      else a1
    if cfg.persistentKeepalive > 0 then a2 ++ ["persistent-keepalive", toString cfg.persistentKeepalive]
    else a2
  else
    let a1 :=
      if cfg.allowedIps.length > 0 then args ++ ["allowed-ips", String.intercalate "," cfg.allowedIps]
      else args ++ ["allowed-ips", ""]
    if cfg.persistentKeepalive > 0 then a1 ++ ["persistent-keepalive", toString cfg.persistentKeepalive]
    else a1

/-- Translation of the argument list built by `WGRepository.UpdateAllowedIPs`
(src/unnamed/part_006:358-380): `strings.Join` of the empty list is the empty
string, passed through unconditionally. -/
def UpdateAllowedIPsArgs (iface publicKey : String) (allowedIps : List String) : List String :=
  ["set", iface, "peer", publicKey, "allowed-ips", String.intercalate "," allowedIps]

/-- Translation of the argument list built by `WGRepository.DeleteConfig`
(src/unnamed/part_006:384-399). -/
def DeleteConfigArgs (iface publicKey : String) : List String :=
  ["set", iface, "peer", publicKey, "remove"]

end WGRepository

/-! ## Repository interface and kernel-state model -/

/-- Translation of the `repository.Repo` interface restricted to the methods
the claims exercise; `σ` is the state of the kernel peer table behind the
`wg` utility.  A `.error` result leaves the state unchanged (the failed
subprocess did not take effect). -/
structure Repo (σ : Type) where
  getConfig : σ → String → Except WgErr domain.Config
  createConfig : σ → domain.Config → Except WgErr σ
  deleteConfig : σ → String → Except WgErr σ

/-- Modelled from the spec: the kernel peer table kept by the external `wg`
utility (spec section 4.1), a list of peer records keyed by public key.
`wg set <iface> peer <pub> ...` upserts: any previous record under the same
key is replaced by the supplied one (attribute merging for re-used keys is not
modelled; the service only ever creates under fresh keys). -/
def kCreateConfig (peers : List domain.Config) (cfg : domain.Config) : List domain.Config :=
  peers.filter (fun c => c.publicKey != cfg.publicKey) ++ [cfg]

/-- Modelled from the spec: `wg set <iface> peer <pub> remove` removes the
record under the key; removing a missing peer is a silent no-op
(spec section 4.1). -/
def kDeleteConfig (peers : List domain.Config) (publicKey : String) : List domain.Config :=
  peers.filter (fun c => c.publicKey != publicKey)

/-- Translation of `WGRepository.GetConfig` (src/unnamed/part_006:255-276) over
the kernel peer table: reject the empty key, then scan the listed peers for the
public key, failing with the `ErrPeerNotFound` sentinel when no peer matches. -/
def kGetConfig (peers : List domain.Config) (publicKey : String) : Except WgErr domain.Config :=
  if publicKey = "" then .error ⟨.otherErr, "public key cannot be empty when fetching peer config"⟩
  else
    match peers.find? (fun c => c.publicKey == publicKey) with
    | some cfg => .ok cfg
    | none => .error errPeerNotFound

/-- The repository over the kernel table with every subprocess succeeding. -/
def kernelRepo : Repo (List domain.Config) where
  getConfig := kGetConfig
  createConfig := fun s cfg => .ok (kCreateConfig s cfg)
  deleteConfig := fun s key => .ok (kDeleteConfig s key)

/-- Kernel repository whose `DeleteConfig` subprocess fails with `e` (state
unchanged), for exercising step 4 failures of rotation. -/
def deleteFailRepo (e : WgErr) : Repo (List domain.Config) :=
  { kernelRepo with deleteConfig := fun _ _ => .error e }

/-- Kernel repository whose `CreateConfig` subprocess fails with `e` (state
unchanged), for exercising step 3 failures of rotation. -/
def createFailRepo (e : WgErr) : Repo (List domain.Config) :=
  { kernelRepo with createConfig := fun _ _ => .error e }

/-! ## Peer service (src/unnamed/part_011, ConfigService) -/

namespace ConfigService

open domain

/-- Translation of `ConfigService.generateKeyPair`
(src/unnamed/part_011:233-283).  `genkeyRes` is the outcome of running
`wg genkey` (a timeout carries the `ErrWgTimeout` sentinel, a failed command an
unwrapped execution error, as in the Go error construction); `pubkeyRun` is
the action of piping a private key through `wg pubkey`.  Both outputs are
whitespace-trimmed and must be non-empty. -/
def generateKeyPair (genkeyRes : Except WgErr String)
    (pubkeyRun : String → Except WgErr String) : Except WgErr (String × String) :=
  match genkeyRes with
  | .error e => .error e
  | .ok raw =>
    let privKey := goTrim raw
    if privKey = "" then .error ⟨.otherErr, "wg genkey produced empty private key"⟩
    else
      match pubkeyRun privKey with
      | .error e => .error e
      | .ok rawPub =>
        let pubKey := goTrim rawPub
        if pubKey = "" then .error ⟨.otherErr, "wg pubkey produced empty public key"⟩
        else .ok (privKey, pubKey)

/-- Translation of the `repoPeerCfg` record built by
`ConfigService.CreateWithNewKeys` (src/unnamed/part_011:127-132): the
configuration handed to the utility gateway, WITHOUT the private key. -/
def createRepoPeerCfg (newPubKey : String) (allowedIPs : List String) (presharedKey : String)
    (persistentKeepalive : Int) : Config :=
  { publicKey := newPubKey
    allowedIps := allowedIPs
    preSharedKey := presharedKey
    persistentKeepalive := persistentKeepalive }

/-- Translation of `ConfigService.CreateWithNewKeys`
(src/unnamed/part_011:109-140).  `gen` is the outcome of `generateKeyPair`;
the returned pair mirrors the Go `(*domain.Config, error)` result. -/
def CreateWithNewKeys {σ : Type} (r : Repo σ) (s : σ) (gen : Except WgErr (String × String))
    (allowedIPs : List String) (presharedKey : String) (persistentKeepalive : Int) :
    σ × Option Config × Option WgErr :=
  match gen with
  | .error e => (s, none, some (wrapErr "failed to generate key pair for new peer: " e))
  | .ok (newPrivKey, newPubKey) =>
    let newPeerCfg : Config :=
      { publicKey := newPubKey
        privateKey := newPrivKey
        allowedIps := allowedIPs
        preSharedKey := presharedKey
        persistentKeepalive := persistentKeepalive }
    match r.createConfig s (createRepoPeerCfg newPubKey allowedIPs presharedKey persistentKeepalive) with
    | .error e =>
      (s, none, some (wrapErr ("failed to add new peer " ++ newPubKey ++ " to WireGuard: ") e))
    | .ok s1 => (s1, some newPeerCfg, none)

/-- Translation of the `repoPeerCfgForCreate` record built by
`ConfigService.RotatePeerKey` (src/unnamed/part_011:318-323): the new public
key with the preserved settings of the old peer, WITHOUT the private key. -/
def rotateRepoPeerCfg (newPubKey : String) (oldCfg : Config) : Config :=
  { publicKey := newPubKey
    allowedIps := oldCfg.allowedIps
    preSharedKey := oldCfg.preSharedKey
    persistentKeepalive := oldCfg.persistentKeepalive }

/-- Translation of `ConfigService.RotatePeerKey` (src/unnamed/part_011:286-344):
fetch the old peer, generate a keypair, create the new peer with preserved
settings, then delete the old peer; a step 4 failure returns the new peer
record TOGETHER with the wrapped error. -/
def RotatePeerKey {σ : Type} (r : Repo σ) (s : σ) (gen : Except WgErr (String × String))
    (oldPublicKey : String) : σ × Option Config × Option WgErr :=
  if oldPublicKey = "" then
    (s, none, some ⟨.otherErr, "old public key cannot be empty for key rotation"⟩)
  else
    match r.getConfig s oldPublicKey with
    | .error e =>
      if e.kind = .peerNotFound then
        (s, none, some (wrapErr ("cannot rotate key for peer " ++ oldPublicKey ++ ": ") errPeerNotFound))
      else
        (s, none,
          some (wrapErr ("failed to retrieve config for peer " ++ oldPublicKey ++ " before rotation: ") e))
    | .ok oldCfg =>
      match gen with
      | .error e =>
        (s, none,
          some (wrapErr ("key pair generation failed during rotation for " ++ oldPublicKey ++ ": ") e))
      | .ok (newPrivKey, newPubKey) =>
        let newPeerDomainCfg : Config :=
          { publicKey := newPubKey
            privateKey := newPrivKey
            allowedIps := oldCfg.allowedIps
            preSharedKey := oldCfg.preSharedKey
            persistentKeepalive := oldCfg.persistentKeepalive }
        match r.createConfig s (rotateRepoPeerCfg newPubKey oldCfg) with
        | .error e =>
          (s, none,
            some (wrapErr
              ("failed to apply new configuration for rotated peer " ++ oldPublicKey ++
                " (new key " ++ newPubKey ++ "): ") e))
        | .ok s1 =>
          match r.deleteConfig s1 oldPublicKey with
          | .error e =>
            (s1, some newPeerDomainCfg,
              some (wrapErrAround
                ("new peer " ++ newPubKey ++ " (rotated from " ++ oldPublicKey ++
                  ") created, but failed to delete old peer: ")
                "; the new peer configuration is still valid and returned" e))
          | .ok s2 => (s2, some newPeerDomainCfg, none)

/-- Translation of `ConfigService.Get` (src/unnamed/part_011:90-106). -/
def Get {σ : Type} (r : Repo σ) (s : σ) (publicKey : String) : Except WgErr Config :=
  if publicKey = "" then .error ⟨.otherErr, "public key cannot be empty for Get operation"⟩
  else r.getConfig s publicKey

/-- Modelled from the spec: the chunk sequence written by the MTU-bearing
revision of `ConfigService.BuildClientConfig`.  Every line except the MTU line
is translated from src/unnamed/part_011:178-230; the `MTU = <n>` line (emitted
exactly when the configured client MTU is positive, between DNS and the blank
separator) is missing from src — only its caller remains
(src/internal/server/integration_test.go:267-274 passes `ClientConfig.MTU` to
`NewConfigService` and asserts the line) — and is modelled from spec
section 4.3.  With `clientConfigMTU = 0` the sequence is exactly the one of
part_011.  Each list element is one `WriteString` call of the Go builder. -/
def BuildClientConfigChunks (clientConfigDNSServers : List String)
    (serverBasePublicKey serverBaseEndpoint : String) (clientConfigMTU : Nat)
    (peerCfg : Config) (clientPrivateKey : String) : List String :=
  ["[Interface]\n", "PrivateKey = " ++ clientPrivateKey ++ "\n"] ++
  (if peerCfg.allowedIps.length > 0 then
    ["Address = " ++ peerCfg.allowedIps.headD "" ++ "\n"]
  else []) ++
  (if clientConfigDNSServers.length > 0 then
    ["DNS = " ++ String.intercalate ", " clientConfigDNSServers ++ "\n"]
  else []) ++
  (if clientConfigMTU > 0 then ["MTU = " ++ toString clientConfigMTU ++ "\n"] else []) ++
  ["\n", "[Peer]\n", "PublicKey = " ++ serverBasePublicKey ++ "\n"] ++
  (if serverBaseEndpoint ≠ "" then ["Endpoint = " ++ serverBaseEndpoint ++ "\n"] else []) ++
  (if peerCfg.preSharedKey ≠ "" then ["PresharedKey = " ++ peerCfg.preSharedKey ++ "\n"] else []) ++
  ["AllowedIPs = 0.0.0.0/0, ::/0\n"] ++
  (if peerCfg.persistentKeepalive > 0 then
    ["PersistentKeepalive = " ++ toString peerCfg.persistentKeepalive ++ "\n"]
  else [])

/-- Translation of `ConfigService.BuildClientConfig`
(src/unnamed/part_011:178-230) with the spec-modelled MTU parameter: guard
the empty client private key and the empty peer public key, then emit the
chunk sequence. -/
def BuildClientConfig (clientConfigDNSServers : List String)
    (serverBasePublicKey serverBaseEndpoint : String) (clientConfigMTU : Nat)
    (peerCfg : Config) (clientPrivateKey : String) : Except WgErr String :=
  if clientPrivateKey = "" then
    .error ⟨.otherErr, "client private key cannot be empty for building .conf file"⟩
  else if peerCfg.publicKey = "" then
    .error ⟨.otherErr, "peer public key is missing from peerCfg, cannot build client config"⟩
  else
    .ok (String.join (BuildClientConfigChunks clientConfigDNSServers serverBasePublicKey
      serverBaseEndpoint clientConfigMTU peerCfg clientPrivateKey))

end ConfigService

/-! ## HTTP surface (src/internal/handler/config.go, ConfigHandler) -/

namespace ConfigHandler

open domain

/-- Body of an HTTP response produced by the handler layer. -/
inductive RespBody where
  | cfg (c : Config)
  | cfgs (cs : List Config)
  | err (e : ErrorResponse)
  | empty
deriving DecidableEq

/-- Whether a response body carries a peer record. -/
def RespBody.isPeerBody : RespBody → Bool
  | .cfg _ => true
  | _ => false

/-- Translation of `domain.GetConfigRequest`. -/
structure GetConfigRequest where
  publicKey : String

/-- Translation of `domain.RotatePeerRequest`. -/
structure RotatePeerRequest where
  publicKey : String

/-- Translation of `ConfigHandler.handleError`
(src/internal/handler/config.go:43-67): `ErrPeerNotFound` maps to 404 naming
the key, `ErrWgTimeout` maps to 503, every other error maps to 500 carrying
the error message. -/
def handleError (key : String) (e : WgErr) : Nat × ErrorResponse :=
  if e.kind = .peerNotFound then
    (404, ⟨"Peer with public key \x27" ++ key ++ "\x27 not found."⟩)
  else if e.kind = .wgTimeout then
    (503, ⟨"WireGuard operation timed out. The service might be temporarily unavailable or under heavy load."⟩)
  else (500, ⟨e.msg⟩)

/-- Translation of `ConfigHandler.GetConfig`
(src/internal/handler/config.go:104-120); `bind` is the outcome of
`ShouldBindJSON`, whose failure yields 400 before any service call. -/
def GetConfig {σ : Type} (r : Repo σ) (s : σ) (bind : Except String GetConfigRequest) :
    Nat × RespBody :=
  match bind with
  | .error m => (400, .err ⟨"Invalid request body: " ++ m⟩)
  | .ok req =>
    match ConfigService.Get r s req.publicKey with
    | .error e => ((handleError req.publicKey e).1, .err (handleError req.publicKey e).2)
    | .ok cfg => (200, .cfg cfg)

/-- Translation of `ConfigHandler.RotatePeer`
(src/internal/handler/config.go:282-301): on a service error the handler
responds via `handleError` and DROPS the returned config; on success it
responds 200 with the new peer record. -/
def RotatePeer {σ : Type} (r : Repo σ) (s : σ) (gen : Except WgErr (String × String))
    (bind : Except String RotatePeerRequest) : σ × Nat × RespBody :=
  match bind with
  | .error m => (s, 400, .err ⟨"Invalid request body: " ++ m⟩)
  | .ok req =>
    match ConfigService.RotatePeerKey r s gen req.publicKey with
    | (s1, newCfg, someErr) =>
      match someErr with
      | some e => (s1, (handleError req.publicKey e).1, .err (handleError req.publicKey e).2)
      | none =>
        match newCfg with
        | some c => (s1, 200, .cfg c)
        | none => (s1, 200, .empty)

end ConfigHandler

/-! ## Lemmas about the kernel peer table -/

theorem kCreate_cons_drop (c : domain.Config) (s : List domain.Config) (cfg : domain.Config)
    (h : c.publicKey = cfg.publicKey) : kCreateConfig (c :: s) cfg = kCreateConfig s cfg := by
  simp [kCreateConfig, List.filter_cons, h]

theorem kCreate_cons_keep (c : domain.Config) (s : List domain.Config) (cfg : domain.Config)
    (h : ¬ c.publicKey = cfg.publicKey) : kCreateConfig (c :: s) cfg = c :: kCreateConfig s cfg := by
  simp [kCreateConfig, List.filter_cons, h]

theorem kDelete_cons_drop (c : domain.Config) (s : List domain.Config) (k : String)
    (h : c.publicKey = k) : kDeleteConfig (c :: s) k = kDeleteConfig s k := by
  simp [kDeleteConfig, List.filter_cons, h]

theorem kDelete_cons_keep (c : domain.Config) (s : List domain.Config) (k : String)
    (h : ¬ c.publicKey = k) : kDeleteConfig (c :: s) k = c :: kDeleteConfig s k := by
  simp [kDeleteConfig, List.filter_cons, h]

theorem find?_kCreate_self (s : List domain.Config) (cfg : domain.Config) :
    List.find? (fun c => c.publicKey == cfg.publicKey) (kCreateConfig s cfg) = some cfg := by
  induction s with
  | nil => simp [kCreateConfig]
  | cons c s ih =>
    by_cases h : c.publicKey = cfg.publicKey
    · rw [kCreate_cons_drop c s cfg h]; exact ih
    · rw [kCreate_cons_keep c s cfg h, List.find?_cons, beq_eq_false_iff_ne.mpr h]
      exact ih

theorem find?_kCreate_other (s : List domain.Config) (cfg : domain.Config) (k : String)
    (h : k ≠ cfg.publicKey) :
    List.find? (fun c => c.publicKey == k) (kCreateConfig s cfg) =
      List.find? (fun c => c.publicKey == k) s := by
  induction s with
  | nil =>
    have h2 : (cfg.publicKey == k) = false := beq_eq_false_iff_ne.mpr (Ne.symm h)
    simp only [kCreateConfig, List.filter_nil, List.nil_append, List.find?_cons, h2,
      List.find?_nil]
  | cons c s ih =>
    by_cases hc : c.publicKey = cfg.publicKey
    · have h2 : (c.publicKey == k) = false := by
        rw [hc]; exact beq_eq_false_iff_ne.mpr (Ne.symm h)
      rw [kCreate_cons_drop c s cfg hc, ih, List.find?_cons, h2]
    · by_cases hck : c.publicKey = k
      · rw [kCreate_cons_keep c s cfg hc, List.find?_cons, List.find?_cons,
          beq_iff_eq.mpr hck]
      · rw [kCreate_cons_keep c s cfg hc, List.find?_cons, List.find?_cons,
          beq_eq_false_iff_ne.mpr hck]
        exact ih

theorem find?_kDelete_self (s : List domain.Config) (k : String) :
    List.find? (fun c => c.publicKey == k) (kDeleteConfig s k) = none := by
  induction s with
  | nil => simp [kDeleteConfig]
  | cons c s ih =>
    by_cases h : c.publicKey = k
    · rw [kDelete_cons_drop c s k h]; exact ih
    · rw [kDelete_cons_keep c s k h, List.find?_cons, beq_eq_false_iff_ne.mpr h]
      exact ih

theorem find?_kDelete_other (s : List domain.Config) (k k' : String) (h : k ≠ k') :
    List.find? (fun c => c.publicKey == k) (kDeleteConfig s k') =
      List.find? (fun c => c.publicKey == k) s := by
  induction s with
  | nil => simp [kDeleteConfig]
  | cons c s ih =>
    by_cases hc : c.publicKey = k'
    · have h2 : (c.publicKey == k) = false := by
        rw [hc]; exact beq_eq_false_iff_ne.mpr (Ne.symm h)
      rw [kDelete_cons_drop c s k' hc, ih, List.find?_cons, h2]
    · by_cases hck : c.publicKey = k
      · rw [kDelete_cons_keep c s k' hc, List.find?_cons, List.find?_cons,
          beq_iff_eq.mpr hck]
      · rw [kDelete_cons_keep c s k' hc, List.find?_cons, List.find?_cons,
          beq_eq_false_iff_ne.mpr hck]
        exact ih

theorem kGet_kCreate_self (s : List domain.Config) (cfg : domain.Config)
    (h : cfg.publicKey ≠ "") :
    kGetConfig (kCreateConfig s cfg) cfg.publicKey = .ok cfg := by
  simp [kGetConfig, h, find?_kCreate_self]

theorem kGet_kDelete_self (s : List domain.Config) (k : String) (h : k ≠ "") :
    kGetConfig (kDeleteConfig s k) k = .error errPeerNotFound := by
  simp [kGetConfig, h, find?_kDelete_self]

theorem kGet_kDelete_other (s : List domain.Config) (k k' : String) (h : k ≠ k') :
    kGetConfig (kDeleteConfig s k') k = kGetConfig s k := by
  by_cases hk : k = ""
  · simp [kGetConfig, hk]
  · simp [kGetConfig, hk, find?_kDelete_other s k k' h]

theorem kGet_kCreate_other (s : List domain.Config) (cfg : domain.Config) (k : String)
    (h : k ≠ cfg.publicKey) :
    kGetConfig (kCreateConfig s cfg) k = kGetConfig s k := by
  by_cases hk : k = ""
  · simp [kGetConfig, hk]
  · simp [kGetConfig, hk, find?_kCreate_other s cfg k h]

theorem kGet_ok_mem (s : List domain.Config) (k : String) (cfg : domain.Config)
    (h : kGetConfig s k = .ok cfg) : cfg ∈ s ∧ cfg.publicKey = k := by
  by_cases hk : k = ""
  · simp [kGetConfig, hk] at h
  · simp only [kGetConfig, hk, if_false] at h
    cases hf : List.find? (fun c => c.publicKey == k) s with
    | none => simp [hf] at h
    | some c =>
      simp [hf] at h
      subst h
      exact ⟨List.mem_of_find?_eq_some hf, by
        have := List.find?_some hf
        simpa using this⟩

theorem kGet_ok_key_ne_empty (s : List domain.Config) (k : String) (cfg : domain.Config)
    (h : kGetConfig s k = .ok cfg) : k ≠ "" := by
  intro hk
  rw [hk] at h
  simp [kGetConfig] at h

/-! ## Lemmas about the service layer -/

theorem generateKeyPair_ok (gk : Except WgErr String) (pr : String → Except WgErr String)
    (priv pub : String) (h : ConfigService.generateKeyPair gk pr = .ok (priv, pub)) :
    priv ≠ "" ∧ pub ≠ "" ∧ ∃ rawPub, pr priv = .ok rawPub ∧ pub = goTrim rawPub := by
  cases gk with
  | error e => simp [ConfigService.generateKeyPair] at h
  | ok raw =>
    simp only [ConfigService.generateKeyPair] at h
    by_cases h1 : goTrim raw = ""
    · rw [if_pos h1] at h; exact Except.noConfusion h
    · rw [if_neg h1] at h
      cases hpr : pr (goTrim raw) with
      | error e => simp only [hpr] at h; exact Except.noConfusion h
      | ok rawPub =>
        simp only [hpr] at h
        by_cases h2 : goTrim rawPub = ""
        · rw [if_pos h2] at h; exact Except.noConfusion h
        · rw [if_neg h2] at h
          simp only [Except.ok.injEq, Prod.mk.injEq] at h
          obtain ⟨hp, hq⟩ := h
          subst hp; subst hq
          exact ⟨h1, h2, rawPub, hpr, rfl⟩

theorem kernelRepo_getConfig : kernelRepo.getConfig = kGetConfig := rfl

theorem deleteFailRepo_getConfig (e : WgErr) : (deleteFailRepo e).getConfig = kGetConfig := rfl

theorem createFailRepo_getConfig (e : WgErr) : (createFailRepo e).getConfig = kGetConfig := rfl

theorem RotatePeerKey_kernel_ok (s : List domain.Config) (oldKey : String)
    (oldCfg : domain.Config) (priv pub : String)
    (hold : kGetConfig s oldKey = .ok oldCfg) (h0 : oldKey ≠ "") :
    ConfigService.RotatePeerKey kernelRepo s (.ok (priv, pub)) oldKey =
      (kDeleteConfig (kCreateConfig s (ConfigService.rotateRepoPeerCfg pub oldCfg)) oldKey,
        some { publicKey := pub, privateKey := priv, allowedIps := oldCfg.allowedIps,
               preSharedKey := oldCfg.preSharedKey,
               persistentKeepalive := oldCfg.persistentKeepalive },
        none) := by
  simp only [ConfigService.RotatePeerKey, if_neg h0, kernelRepo_getConfig, hold]
  rfl

theorem RotatePeerKey_deleteFail (s : List domain.Config) (oldKey : String)
    (oldCfg : domain.Config) (priv pub : String) (e : WgErr)
    (hold : kGetConfig s oldKey = .ok oldCfg) (h0 : oldKey ≠ "") :
    ConfigService.RotatePeerKey (deleteFailRepo e) s (.ok (priv, pub)) oldKey =
      (kCreateConfig s (ConfigService.rotateRepoPeerCfg pub oldCfg),
        some { publicKey := pub, privateKey := priv, allowedIps := oldCfg.allowedIps,
               preSharedKey := oldCfg.preSharedKey,
               persistentKeepalive := oldCfg.persistentKeepalive },
        some (wrapErrAround
          ("new peer " ++ pub ++ " (rotated from " ++ oldKey ++
            ") created, but failed to delete old peer: ")
          "; the new peer configuration is still valid and returned" e)) := by
  simp only [ConfigService.RotatePeerKey, if_neg h0, deleteFailRepo_getConfig, hold]
  rfl

theorem RotatePeerKey_createFail (s : List domain.Config) (oldKey : String)
    (oldCfg : domain.Config) (priv pub : String) (e : WgErr)
    (hold : kGetConfig s oldKey = .ok oldCfg) (h0 : oldKey ≠ "") :
    ConfigService.RotatePeerKey (createFailRepo e) s (.ok (priv, pub)) oldKey =
      (s, none,
        some (wrapErr ("failed to apply new configuration for rotated peer " ++ oldKey ++
          " (new key " ++ pub ++ "): ") e)) := by
  simp only [ConfigService.RotatePeerKey, if_neg h0, createFailRepo_getConfig, hold]
  rfl

theorem RotatePeerKey_notFound (s : List domain.Config) (oldKey : String)
    (gen : Except WgErr (String × String))
    (hold : kGetConfig s oldKey = .error errPeerNotFound) (h0 : oldKey ≠ "") :
    ConfigService.RotatePeerKey kernelRepo s gen oldKey =
      (s, none,
        some (wrapErr ("cannot rotate key for peer " ++ oldKey ++ ": ") errPeerNotFound)) := by
  simp only [ConfigService.RotatePeerKey, if_neg h0, kernelRepo_getConfig, hold]
  rfl

theorem CreateWithNewKeys_kernel (s : List domain.Config) (priv pub : String)
    (ips : List String) (psk : String) (ka : Int) :
    ConfigService.CreateWithNewKeys kernelRepo s (.ok (priv, pub)) ips psk ka =
      (kCreateConfig s (ConfigService.createRepoPeerCfg pub ips psk ka),
        some { publicKey := pub, privateKey := priv, allowedIps := ips,
               preSharedKey := psk, persistentKeepalive := ka },
        none) := rfl

theorem GetConfig_handler_ok (s : List domain.Config) (k : String) (cfg : domain.Config)
    (h : kGetConfig s k = .ok cfg) (h0 : k ≠ "") :
    ConfigHandler.GetConfig kernelRepo s (.ok ⟨k⟩) = (200, .cfg cfg) := by
  simp only [ConfigHandler.GetConfig, ConfigService.Get, if_neg h0, kernelRepo_getConfig, h]

theorem GetConfig_handler_notFound (s : List domain.Config) (k : String)
    (h : kGetConfig s k = .error errPeerNotFound) (h0 : k ≠ "") :
    ConfigHandler.GetConfig kernelRepo s (.ok ⟨k⟩) =
      (404, .err ⟨"Peer with public key \x27" ++ k ++ "\x27 not found."⟩) := by
  simp only [ConfigHandler.GetConfig, ConfigService.Get, if_neg h0, kernelRepo_getConfig, h]
  rfl

theorem mem_kCreate (s : List domain.Config) (cfg c : domain.Config)
    (h : c ∈ kCreateConfig s cfg) : c ∈ s ∨ c = cfg := by
  rcases List.mem_append.1 h with h1 | h1
  · exact Or.inl (List.mem_filter.1 h1).1
  · exact Or.inr (List.mem_singleton.1 h1)

/-! ## Claims -/

/-- C8: the claim says dump parsing is total and never aborts, for every dump
text including empty output and empty lines.  The current gateway parser
(src/unnamed/part_006) satisfies this, but the earlier revision kept in the
repository (src/internal/repository/wg.go:44-57) reads `parts[0]` before any
length check, so the single empty line obtained from empty output — and any
embedded empty line — makes the index out of range and the list operation
panics instead of returning: the code contradicts its own skip-malformed
intent.  This theorem evaluates both parsers at the failing inputs. -/
theorem c8_old_parser_crashes_on_empty_line :
    WGRepositoryOld.ListConfigs "wg0" "" = none ∧
    WGRepositoryOld.ListConfigs "wg0" "A B C D E F G 25\n\nI J K L M N O off" = none ∧
    WGRepository.ListConfigs "" = [] ∧
    WGRepository.ListConfigs "A B C D E F G 25\n\nI J K L M N O off" =
      WGRepository.parseLines true ["A B C D E F G 25".data, "I J K L M N O off".data] := by
  refine ⟨by decide, by decide, by decide, by decide⟩

/-- C10: the claim fails as stated: when a preshared key is present,
`WGRepository.CreateConfig` appends `allowed-ips` ONLY for a non-empty list,
so an empty list is NOT expressed as an empty-string clearing argument in that
branch (shown by the counterexample); amended statement: without a preshared
key, creation with an empty list passes the explicit pair `allowed-ips ""`,
`UpdateAllowedIPs` always passes `allowed-ips` with the (possibly empty)
joined list, and with a preshared key and an empty list the command carries no
`allowed-ips` token at all. -/
theorem c10_empty_allowed_ips_amended (iface publicKey : String) (cfg : domain.Config) :
    (cfg.preSharedKey = "" → cfg.allowedIps = [] →
      WGRepository.CreateConfigArgs iface cfg =
        ["set", iface, "peer", cfg.publicKey, "allowed-ips", ""] ++
          (if cfg.persistentKeepalive > 0 then
            ["persistent-keepalive", toString cfg.persistentKeepalive]
          else [])) ∧
    WGRepository.UpdateAllowedIPsArgs iface publicKey [] =
      ["set", iface, "peer", publicKey, "allowed-ips", ""] ∧
    (cfg.preSharedKey ≠ "" → cfg.allowedIps = [] →
      WGRepository.CreateConfigArgs iface cfg =
        ["set", iface, "peer", cfg.publicKey, "preshared-key", "/dev/stdin"] ++
          (if cfg.persistentKeepalive > 0 then
            ["persistent-keepalive", toString cfg.persistentKeepalive]
          else [])) := by
  refine ⟨?_, ?_, ?_⟩
  · intro h1 h2
    simp [WGRepository.CreateConfigArgs, h1, h2]
    split <;> simp
  · rfl
  · intro h1 h2
    simp [WGRepository.CreateConfigArgs, h1, h2]
    split <;> simp

/-- C10 counterexample: a create with a preshared key and an empty allowed-ips
list produces a command line with NO `allowed-ips` token, contradicting the
claim that the empty list is always expressed as an explicit empty-string
argument. -/
theorem c10_counterexample :
    "allowed-ips" ∉ WGRepository.CreateConfigArgs "wg0"
      { publicKey := "PK", preSharedKey := "SK", allowedIps := [], persistentKeepalive := 0 } := by
  decide

/-- C10 witness: the amended statement evaluated at concrete inputs. -/
theorem c10_witness :
    WGRepository.CreateConfigArgs "wg0"
        { publicKey := "PK", allowedIps := [], persistentKeepalive := 25 } =
      ["set", "wg0", "peer", "PK", "allowed-ips", "", "persistent-keepalive", "25"] ∧
    WGRepository.UpdateAllowedIPsArgs "wg0" "PK2" [] =
      ["set", "wg0", "peer", "PK2", "allowed-ips", ""] ∧
    WGRepository.CreateConfigArgs "wg0"
        { publicKey := "PK", preSharedKey := "SK", allowedIps := [], persistentKeepalive := 0 } =
      ["set", "wg0", "peer", "PK", "preshared-key", "/dev/stdin"] := by
  have h1 := (c10_empty_allowed_ips_amended "wg0" "PK2"
    { publicKey := "PK", allowedIps := [], persistentKeepalive := 25 }).1 rfl rfl
  have h2 := (c10_empty_allowed_ips_amended "wg0" "PK2"
    { publicKey := "PK", allowedIps := [], persistentKeepalive := 25 }).2.1
  have h3 := (c10_empty_allowed_ips_amended "wg0" "PK2"
    { publicKey := "PK", preSharedKey := "SK", allowedIps := [], persistentKeepalive := 0 }).2.2
    (by decide) rfl
  exact ⟨h1.trans (by decide), h2, h3.trans (by decide)⟩

/-- C9: the HTTP surface maps errors by kind: `ErrPeerNotFound` to 404 with a
message naming the missing key, `ErrWgTimeout` to 503, any other surfaced
error to 500, with 503 produced only for timeouts; a decode failure yields 400
carrying the reason before any service call. -/
theorem c9_error_status_mapping (key : String) (e : WgErr) (s : List domain.Config)
    (m : String) (gen : Except WgErr (String × String)) :
    ((ConfigHandler.handleError key e).1 = 404 ↔ e.kind = .peerNotFound) ∧
    ((ConfigHandler.handleError key e).1 = 503 ↔ e.kind = .wgTimeout) ∧
    ((ConfigHandler.handleError key e).1 = 500 ↔
      (e.kind ≠ .peerNotFound ∧ e.kind ≠ .wgTimeout)) ∧
    (e.kind = .peerNotFound →
      (ConfigHandler.handleError key e).2 =
        ⟨"Peer with public key \x27" ++ key ++ "\x27 not found."⟩) ∧
    ConfigHandler.GetConfig kernelRepo s (.error m) =
      (400, .err ⟨"Invalid request body: " ++ m⟩) ∧
    ConfigHandler.RotatePeer kernelRepo s gen (.error m) =
      (s, 400, .err ⟨"Invalid request body: " ++ m⟩) := by
  obtain ⟨k, msg⟩ := e
  cases k <;>
    simp [ConfigHandler.handleError, ConfigHandler.GetConfig, ConfigHandler.RotatePeer]

/-- C9 witness: the mapping evaluated at concrete errors. -/
theorem c9_witness :
    (ConfigHandler.handleError "KEY" ⟨.peerNotFound, "x"⟩).1 = 404 ∧
    (ConfigHandler.handleError "KEY" ⟨.peerNotFound, "x"⟩).2 =
      ⟨"Peer with public key \x27KEY\x27 not found."⟩ ∧
    (ConfigHandler.handleError "KEY" ⟨.wgTimeout, "x"⟩).1 = 503 ∧
    (ConfigHandler.handleError "KEY" ⟨.execFailed, "x"⟩).1 = 500 := by
  have h1 := c9_error_status_mapping "KEY" ⟨.peerNotFound, "x"⟩ [] "" (.ok ("p", "P"))
  have h2 := c9_error_status_mapping "KEY" ⟨.wgTimeout, "x"⟩ [] "" (.ok ("p", "P"))
  have h3 := c9_error_status_mapping "KEY" ⟨.execFailed, "x"⟩ [] "" (.ok ("p", "P"))
  refine ⟨h1.1.mpr rfl, (h1.2.2.2.1 rfl).trans (by decide), h2.2.1.mpr rfl, ?_⟩
  exact h3.2.2.1.mpr (by exact ⟨by decide, by decide⟩)

/-- C2: after a rotation that completes fully (old peer found, keypair
generated, new peer created, old peer removed), the service returns the new
peer record with the old settings preserved, a GET on the old public key
answers 404 (peer not found) and a GET on the new public key answers 200 with
the preserved allowedIps, preSharedKey and persistentKeepalive. -/
theorem c2_rotate_success_old_404_new_200 (s : List domain.Config) (oldKey : String)
    (oldCfg : domain.Config) (gk : Except WgErr String)
    (pr : String → Except WgErr String) (priv pub : String)
    (hold : kGetConfig s oldKey = .ok oldCfg)
    (hgen : ConfigService.generateKeyPair gk pr = .ok (priv, pub))
    (hne : pub ≠ oldKey) :
    ∃ s2 R,
      ConfigService.RotatePeerKey kernelRepo s (ConfigService.generateKeyPair gk pr) oldKey =
        (s2, some R, none) ∧
      R.allowedIps = oldCfg.allowedIps ∧ R.preSharedKey = oldCfg.preSharedKey ∧
      R.persistentKeepalive = oldCfg.persistentKeepalive ∧ R.publicKey = pub ∧
      R.privateKey = priv ∧
      ConfigHandler.GetConfig kernelRepo s2 (.ok ⟨oldKey⟩) =
        (404, .err ⟨"Peer with public key \x27" ++ oldKey ++ "\x27 not found."⟩) ∧
      (∃ c, ConfigHandler.GetConfig kernelRepo s2 (.ok ⟨pub⟩) = (200, .cfg c) ∧
        c.allowedIps = oldCfg.allowedIps ∧ c.preSharedKey = oldCfg.preSharedKey ∧
        c.persistentKeepalive = oldCfg.persistentKeepalive) := by
  have h0 := kGet_ok_key_ne_empty s oldKey oldCfg hold
  obtain ⟨hpriv, hpub, -⟩ := generateKeyPair_ok gk pr priv pub hgen
  rw [hgen]
  refine ⟨kDeleteConfig (kCreateConfig s (ConfigService.rotateRepoPeerCfg pub oldCfg)) oldKey,
    _, RotatePeerKey_kernel_ok s oldKey oldCfg priv pub hold h0,
    rfl, rfl, rfl, rfl, rfl, ?_, ?_⟩
  · refine GetConfig_handler_notFound _ oldKey ?_ h0
    exact kGet_kDelete_self _ oldKey h0
  · refine ⟨ConfigService.rotateRepoPeerCfg pub oldCfg, ?_, rfl, rfl, rfl⟩
    refine GetConfig_handler_ok _ pub _ ?_ hpub
    rw [kGet_kDelete_other _ pub oldKey hne]
    have := kGet_kCreate_self s (ConfigService.rotateRepoPeerCfg pub oldCfg) hpub
    exact this

/-- C2 witness: a concrete full rotation from key OLD to key NEWPUB. -/
theorem c2_witness :
    ∃ s2 R,
      ConfigService.RotatePeerKey kernelRepo
          [{ publicKey := "OLD", preSharedKey := "PSK", allowedIps := ["10.0.0.2/32"],
             persistentKeepalive := 25 }]
          (ConfigService.generateKeyPair (.ok "NEWPRIV\n") (fun _ => .ok "NEWPUB\n")) "OLD" =
        (s2, some R, none) ∧
      R.allowedIps = ["10.0.0.2/32"] ∧ R.preSharedKey = "PSK" ∧
      R.persistentKeepalive = 25 ∧ R.publicKey = "NEWPUB" ∧ R.privateKey = "NEWPRIV" ∧
      ConfigHandler.GetConfig kernelRepo s2 (.ok ⟨"OLD"⟩) =
        (404, .err ⟨"Peer with public key \x27" ++ "OLD" ++ "\x27 not found."⟩) ∧
      (∃ c, ConfigHandler.GetConfig kernelRepo s2 (.ok ⟨"NEWPUB"⟩) = (200, .cfg c) ∧
        c.allowedIps = ["10.0.0.2/32"] ∧ c.preSharedKey = "PSK" ∧
        c.persistentKeepalive = 25) := by
  exact c2_rotate_success_old_404_new_200 _ "OLD"
    { publicKey := "OLD", preSharedKey := "PSK", allowedIps := ["10.0.0.2/32"],
      persistentKeepalive := 25 }
    (.ok "NEWPRIV\n") (fun _ => .ok "NEWPUB\n") "NEWPRIV" "NEWPUB"
    (by rfl) (by rfl) (by decide)

/-- C5: rotation is atomic up to step 3.  When the old key does not exist the
rotate endpoint answers 404 and the kernel state is unchanged; when key
generation fails the service returns an error, no peer record, and the state
is unchanged; when creating the new peer fails the service returns an error,
no peer record, the state is unchanged and the old peer is still readable (no
delete was applied). -/
theorem c5_rotate_atomic_up_to_create :
    (∀ (s : List domain.Config) (gen : Except WgErr (String × String)) (k : String),
      k ≠ "" → kGetConfig s k = .error errPeerNotFound →
      ConfigHandler.RotatePeer kernelRepo s gen (.ok ⟨k⟩) =
        (s, 404, .err ⟨"Peer with public key \x27" ++ k ++ "\x27 not found."⟩)) ∧
    (∀ (s : List domain.Config) (k : String) (oldCfg : domain.Config) (e : WgErr),
      kGetConfig s k = .ok oldCfg →
      ConfigService.RotatePeerKey kernelRepo s (.error e) k =
        (s, none,
          some (wrapErr ("key pair generation failed during rotation for " ++ k ++ ": ") e))) ∧
    (∀ (s : List domain.Config) (k : String) (oldCfg : domain.Config) (e : WgErr)
      (priv pub : String),
      kGetConfig s k = .ok oldCfg →
      ConfigService.RotatePeerKey (createFailRepo e) s (.ok (priv, pub)) k =
        (s, none,
          some (wrapErr ("failed to apply new configuration for rotated peer " ++ k ++
            " (new key " ++ pub ++ "): ") e)) ∧
      ConfigService.Get (createFailRepo e) s k = .ok oldCfg) := by
  refine ⟨?_, ?_, ?_⟩
  · intro s gen k h0 hnf
    simp only [ConfigHandler.RotatePeer, RotatePeerKey_notFound s k gen hnf h0]
    rfl
  · intro s k oldCfg e hold
    have h0 := kGet_ok_key_ne_empty s k oldCfg hold
    simp only [ConfigService.RotatePeerKey, if_neg h0, kernelRepo_getConfig, hold]
  · intro s k oldCfg e priv pub hold
    have h0 := kGet_ok_key_ne_empty s k oldCfg hold
    refine ⟨RotatePeerKey_createFail s k oldCfg priv pub e hold h0, ?_⟩
    simp only [ConfigService.Get, if_neg h0, createFailRepo_getConfig, hold]

/-- C5 witness: the three abort cases evaluated at concrete inputs. -/
theorem c5_witness :
    ConfigHandler.RotatePeer kernelRepo ([] : List domain.Config) (.ok ("p", "P"))
        (.ok ⟨"MISSING"⟩) =
      ([], 404, .err ⟨"Peer with public key \x27" ++ "MISSING" ++ "\x27 not found."⟩) ∧
    ConfigService.RotatePeerKey kernelRepo
        [{ publicKey := "OLD", allowedIps := ["10.0.0.2/32"] }]
        (.error ⟨.wgTimeout, "wireguard command timed out"⟩) "OLD" =
      ([{ publicKey := "OLD", allowedIps := ["10.0.0.2/32"] }], none,
        some (wrapErr ("key pair generation failed during rotation for " ++ "OLD" ++ ": ")
          ⟨.wgTimeout, "wireguard command timed out"⟩)) ∧
    ConfigService.RotatePeerKey (createFailRepo ⟨.execFailed, "boom"⟩)
        [{ publicKey := "OLD", allowedIps := ["10.0.0.2/32"] }] (.ok ("p", "P")) "OLD" =
      ([{ publicKey := "OLD", allowedIps := ["10.0.0.2/32"] }], none,
        some (wrapErr ("failed to apply new configuration for rotated peer " ++ "OLD" ++
          " (new key " ++ "P" ++ "): ") ⟨.execFailed, "boom"⟩)) := by
  refine ⟨c5_rotate_atomic_up_to_create.1 [] (.ok ("p", "P")) "MISSING" (by decide) (by rfl),
    c5_rotate_atomic_up_to_create.2.1 _ "OLD" { publicKey := "OLD", allowedIps := ["10.0.0.2/32"] }
      ⟨.wgTimeout, "wireguard command timed out"⟩ (by rfl),
    (c5_rotate_atomic_up_to_create.2.2 _ "OLD" { publicKey := "OLD", allowedIps := ["10.0.0.2/32"] }
      ⟨.execFailed, "boom"⟩ "p" "P" (by rfl)).1⟩

/-- C1 counterexample: a rotation whose step 4 (remove old peer) fails with an
execution error yields status 500 but the response body is ONLY the error
message — it does not carry the new peer record, contradicting the claim that
the body carries both. -/
theorem c1_counterexample :
    (ConfigHandler.RotatePeer (deleteFailRepo ⟨.execFailed, "boom"⟩)
        [{ publicKey := "OLDKEY", allowedIps := ["10.0.0.2/32"], persistentKeepalive := 25 }]
        (.ok ("NEWPRIV", "NEWPUB")) (.ok ⟨"OLDKEY"⟩)).2.1 = 500 ∧
    ConfigHandler.RespBody.isPeerBody
      (ConfigHandler.RotatePeer (deleteFailRepo ⟨.execFailed, "boom"⟩)
        [{ publicKey := "OLDKEY", allowedIps := ["10.0.0.2/32"], persistentKeepalive := 25 }]
        (.ok ("NEWPRIV", "NEWPUB")) (.ok ⟨"OLDKEY"⟩)).2.2 = false := by
  decide

/-- C1 (amended): when step 4 of the rotation fails with a non-timeout,
non-not-found error, the HTTP response has status 500 and its body is an error
message naming the new and old public keys — the new peer record (with its
private key) is returned by the service to the handler but the handler drops
it from the HTTP body; afterwards GET on the old key answers 200 and GET on
the new key answers 200 with the preserved settings. -/
theorem c1_rotate_partial_amended (s : List domain.Config) (oldKey : String)
    (oldCfg : domain.Config) (e : WgErr) (priv pub : String)
    (hold : kGetConfig s oldKey = .ok oldCfg)
    (hpub : pub ≠ "") (hne : pub ≠ oldKey)
    (he1 : e.kind ≠ .peerNotFound) (he2 : e.kind ≠ .wgTimeout) :
    ∃ s1,
      ConfigHandler.RotatePeer (deleteFailRepo e) s (.ok (priv, pub)) (.ok ⟨oldKey⟩) =
        (s1, 500, .err ⟨"new peer " ++ pub ++ " (rotated from " ++ oldKey ++
          ") created, but failed to delete old peer: " ++ e.msg ++
          "; the new peer configuration is still valid and returned"⟩) ∧
      ConfigHandler.RespBody.isPeerBody
        (ConfigHandler.RotatePeer (deleteFailRepo e) s (.ok (priv, pub)) (.ok ⟨oldKey⟩)).2.2 =
        false ∧
      (∃ R, (ConfigService.RotatePeerKey (deleteFailRepo e) s (.ok (priv, pub)) oldKey).2.1 =
          some R ∧
        R.privateKey = priv ∧ R.publicKey = pub ∧ R.allowedIps = oldCfg.allowedIps ∧
        R.preSharedKey = oldCfg.preSharedKey ∧
        R.persistentKeepalive = oldCfg.persistentKeepalive) ∧
      ConfigHandler.GetConfig kernelRepo s1 (.ok ⟨oldKey⟩) = (200, .cfg oldCfg) ∧
      (∃ c, ConfigHandler.GetConfig kernelRepo s1 (.ok ⟨pub⟩) = (200, .cfg c) ∧
        c.allowedIps = oldCfg.allowedIps ∧ c.preSharedKey = oldCfg.preSharedKey ∧
        c.persistentKeepalive = oldCfg.persistentKeepalive) := by
  have h0 := kGet_ok_key_ne_empty s oldKey oldCfg hold
  have hrot := RotatePeerKey_deleteFail s oldKey oldCfg priv pub e hold h0
  have hstatus :
      (ConfigHandler.handleError oldKey (wrapErrAround
        ("new peer " ++ pub ++ " (rotated from " ++ oldKey ++
          ") created, but failed to delete old peer: ")
        "; the new peer configuration is still valid and returned" e)) =
      (500, ⟨"new peer " ++ pub ++ " (rotated from " ++ oldKey ++
        ") created, but failed to delete old peer: " ++ e.msg ++
        "; the new peer configuration is still valid and returned"⟩) := by
    simp only [ConfigHandler.handleError, wrapErrAround, if_neg he1, if_neg he2]
  have hhandler :
      ConfigHandler.RotatePeer (deleteFailRepo e) s (.ok (priv, pub)) (.ok ⟨oldKey⟩) =
        (kCreateConfig s (ConfigService.rotateRepoPeerCfg pub oldCfg), 500,
          .err ⟨"new peer " ++ pub ++ " (rotated from " ++ oldKey ++
            ") created, but failed to delete old peer: " ++ e.msg ++
            "; the new peer configuration is still valid and returned"⟩) := by
    simp only [ConfigHandler.RotatePeer, hrot, hstatus]
  refine ⟨kCreateConfig s (ConfigService.rotateRepoPeerCfg pub oldCfg), hhandler, ?_, ?_, ?_, ?_⟩
  · rw [hhandler]; rfl
  · refine ⟨⟨priv, pub, oldCfg.preSharedKey, "", oldCfg.allowedIps, 0, 0, 0,
      oldCfg.persistentKeepalive⟩, ?_, rfl, rfl, rfl, rfl, rfl⟩
    rw [hrot]
  · refine GetConfig_handler_ok _ oldKey oldCfg ?_ h0
    rw [kGet_kCreate_other s _ oldKey (Ne.symm hne)]
    exact hold
  · refine ⟨ConfigService.rotateRepoPeerCfg pub oldCfg, ?_, rfl, rfl, rfl⟩
    exact GetConfig_handler_ok _ pub _ (kGet_kCreate_self s _ hpub) hpub

/-- C1 witness: the amended partial-rotation contract at a concrete input. -/
theorem c1_witness :
    ∃ s1,
      ConfigHandler.RotatePeer (deleteFailRepo ⟨.execFailed, "boom"⟩)
          [{ publicKey := "OLD", preSharedKey := "PSK", allowedIps := ["10.0.0.2/32"],
             persistentKeepalive := 25 }]
          (.ok ("NEWPRIV", "NEWPUB")) (.ok ⟨"OLD"⟩) =
        (s1, 500, .err ⟨"new peer " ++ "NEWPUB" ++ " (rotated from " ++ "OLD" ++
          ") created, but failed to delete old peer: " ++ "boom" ++
          "; the new peer configuration is still valid and returned"⟩) ∧
      ConfigHandler.RespBody.isPeerBody
        (ConfigHandler.RotatePeer (deleteFailRepo ⟨.execFailed, "boom"⟩)
          [{ publicKey := "OLD", preSharedKey := "PSK", allowedIps := ["10.0.0.2/32"],
             persistentKeepalive := 25 }]
          (.ok ("NEWPRIV", "NEWPUB")) (.ok ⟨"OLD"⟩)).2.2 = false ∧
      (∃ R, (ConfigService.RotatePeerKey (deleteFailRepo ⟨.execFailed, "boom"⟩)
          [{ publicKey := "OLD", preSharedKey := "PSK", allowedIps := ["10.0.0.2/32"],
             persistentKeepalive := 25 }]
          (.ok ("NEWPRIV", "NEWPUB")) "OLD").2.1 = some R ∧
        R.privateKey = "NEWPRIV" ∧ R.publicKey = "NEWPUB" ∧
        R.allowedIps = ["10.0.0.2/32"] ∧ R.preSharedKey = "PSK" ∧
        R.persistentKeepalive = 25) ∧
      ConfigHandler.GetConfig kernelRepo s1 (.ok ⟨"OLD"⟩) =
        (200, ConfigHandler.RespBody.cfg ⟨"", "OLD", "PSK", "", ["10.0.0.2/32"], 0, 0, 0, 25⟩) ∧
      (∃ c, ConfigHandler.GetConfig kernelRepo s1 (.ok ⟨"NEWPUB"⟩) = (200, .cfg c) ∧
        c.allowedIps = ["10.0.0.2/32"] ∧ c.preSharedKey = "PSK" ∧
        c.persistentKeepalive = 25) := by
  exact c1_rotate_partial_amended _ "OLD"
    { publicKey := "OLD", preSharedKey := "PSK", allowedIps := ["10.0.0.2/32"],
      persistentKeepalive := 25 }
    ⟨.execFailed, "boom"⟩ "NEWPRIV" "NEWPUB"
    (by rfl) (by decide) (by decide) (by decide) (by decide)

theorem parsePeerLine_privateKey (line : List Char) :
    (WGRepository.parsePeerLine line).privateKey = "" := rfl

theorem parseLines_privateKey (lines : List (List Char)) :
    ∀ (b : Bool) (c : domain.Config), c ∈ WGRepository.parseLines b lines →
      c.privateKey = "" := by
  induction lines with
  | nil => intro b c hc; simp [WGRepository.parseLines] at hc
  | cons l rest ih =>
    intro b c hc
    simp only [WGRepository.parseLines] at hc
    split_ifs at hc with h1 h2 h3
    · exact ih b c hc
    · exact ih false c hc
    · exact ih false c hc
    · rcases List.mem_cons.1 hc with h | h
      · rw [h]; exact parsePeerLine_privateKey l
      · exact ih false c h

/-- C3: for every successful CreateWithNewKeys and RotatePeerKey response, the
returned public key is the trimmed output of piping the returned private key
through the pubkey operation of the utility; the create response carries the
request fields unchanged; and the configuration handed to the utility gateway
(`repoPeerCfg` / `repoPeerCfgForCreate`) carries the public key and an EMPTY
private key. -/
theorem c3_key_consistency :
    (∀ (gk : Except WgErr String) (pr : String → Except WgErr String) (priv pub : String),
      ConfigService.generateKeyPair gk pr = .ok (priv, pub) →
      priv ≠ "" ∧ pub ≠ "" ∧ ∃ rawPub, pr priv = .ok rawPub ∧ pub = goTrim rawPub) ∧
    (∀ (σ : Type) (r : Repo σ) (s : σ) (priv pub : String) (ips : List String)
      (psk : String) (ka : Int) (s1 : σ) (R : domain.Config) (eOpt : Option WgErr),
      ConfigService.CreateWithNewKeys r s (.ok (priv, pub)) ips psk ka = (s1, some R, eOpt) →
      R.privateKey = priv ∧ R.publicKey = pub ∧ R.allowedIps = ips ∧
        R.preSharedKey = psk ∧ R.persistentKeepalive = ka) ∧
    (∀ (pub : String) (ips : List String) (psk : String) (ka : Int),
      (ConfigService.createRepoPeerCfg pub ips psk ka).privateKey = "" ∧
      (ConfigService.createRepoPeerCfg pub ips psk ka).publicKey = pub ∧
      (ConfigService.createRepoPeerCfg pub ips psk ka).allowedIps = ips ∧
      (ConfigService.createRepoPeerCfg pub ips psk ka).preSharedKey = psk ∧
      (ConfigService.createRepoPeerCfg pub ips psk ka).persistentKeepalive = ka) ∧
    (∀ (σ : Type) (r : Repo σ) (s : σ) (priv pub oldKey : String) (s1 : σ)
      (R : domain.Config) (eOpt : Option WgErr),
      ConfigService.RotatePeerKey r s (.ok (priv, pub)) oldKey = (s1, some R, eOpt) →
      R.privateKey = priv ∧ R.publicKey = pub) ∧
    (∀ (pub : String) (oldCfg : domain.Config),
      (ConfigService.rotateRepoPeerCfg pub oldCfg).privateKey = "" ∧
      (ConfigService.rotateRepoPeerCfg pub oldCfg).publicKey = pub) := by
  refine ⟨generateKeyPair_ok, ?_, ?_, ?_, ?_⟩
  · intro σ r s priv pub ips psk ka s1 R eOpt h
    cases hc : r.createConfig s (ConfigService.createRepoPeerCfg pub ips psk ka) with
    | error e =>
      simp only [ConfigService.CreateWithNewKeys, hc, Prod.mk.injEq] at h
      exact absurd h.2.1 (by simp)
    | ok s1' =>
      simp only [ConfigService.CreateWithNewKeys, hc, Prod.mk.injEq,
        Option.some.injEq] at h
      obtain ⟨-, hR, -⟩ := h
      rw [← hR]
      exact ⟨rfl, rfl, rfl, rfl, rfl⟩
  · intro pub ips psk ka
    exact ⟨rfl, rfl, rfl, rfl, rfl⟩
  · intro σ r s priv pub oldKey s1 R eOpt h
    by_cases h0 : oldKey = ""
    · simp only [ConfigService.RotatePeerKey, h0, if_true, Prod.mk.injEq] at h
      exact absurd h.2.1 (by simp)
    · simp only [ConfigService.RotatePeerKey, if_neg h0] at h
      cases hg : r.getConfig s oldKey with
      | error e =>
        simp only [hg] at h
        by_cases hk : e.kind = .peerNotFound <;>
          simp only [hk, if_true, if_neg, Prod.mk.injEq, reduceIte] at h <;>
          exact absurd h.2.1 (by simp)
      | ok oldCfg =>
        simp only [hg] at h
        cases hc : r.createConfig s (ConfigService.rotateRepoPeerCfg pub oldCfg) with
        | error e =>
          simp only [hc, Prod.mk.injEq] at h
          exact absurd h.2.1 (by simp)
        | ok s1' =>
          simp only [hc] at h
          cases hd : r.deleteConfig s1' oldKey with
          | error e =>
            simp only [hd, Prod.mk.injEq, Option.some.injEq] at h
            obtain ⟨-, hR, -⟩ := h
            rw [← hR]; exact ⟨rfl, rfl⟩
          | ok s2 =>
            simp only [hd, Prod.mk.injEq, Option.some.injEq] at h
            obtain ⟨-, hR, -⟩ := h
            rw [← hR]; exact ⟨rfl, rfl⟩
  · intro pub oldCfg
    exact ⟨rfl, rfl⟩

/-- C3 witness: key consistency at a concrete generated pair, create and
rotate. -/
theorem c3_witness :
    (("NEWPRIV" : String) ≠ "" ∧ ("NEWPUB" : String) ≠ "" ∧
      ∃ rawPub, (fun _ : String => (Except.ok " NEWPUB\n" : Except WgErr String)) "NEWPRIV" =
          .ok rawPub ∧ "NEWPUB" = goTrim rawPub) ∧
    ((⟨"NEWPRIV", "NEWPUB", "PSK", "", ["10.0.0.2/32"], 0, 0, 0, 25⟩ :
        domain.Config).privateKey = "NEWPRIV" ∧
      (⟨"NEWPRIV", "NEWPUB", "PSK", "", ["10.0.0.2/32"], 0, 0, 0, 25⟩ :
        domain.Config).publicKey = "NEWPUB" ∧
      (⟨"NEWPRIV", "NEWPUB", "PSK", "", ["10.0.0.2/32"], 0, 0, 0, 25⟩ :
        domain.Config).allowedIps = ["10.0.0.2/32"] ∧
      (⟨"NEWPRIV", "NEWPUB", "PSK", "", ["10.0.0.2/32"], 0, 0, 0, 25⟩ :
        domain.Config).preSharedKey = "PSK" ∧
      (⟨"NEWPRIV", "NEWPUB", "PSK", "", ["10.0.0.2/32"], 0, 0, 0, 25⟩ :
        domain.Config).persistentKeepalive = 25) ∧
    ((⟨"NEWPRIV", "NEWPUB", "OLDPSK", "", ["10.9.0.2/32"], 0, 0, 0, 15⟩ :
        domain.Config).privateKey = "NEWPRIV" ∧
      (⟨"NEWPRIV", "NEWPUB", "OLDPSK", "", ["10.9.0.2/32"], 0, 0, 0, 15⟩ :
        domain.Config).publicKey = "NEWPUB") := by
  refine ⟨c3_key_consistency.1 (.ok "NEWPRIV\n") (fun _ => .ok " NEWPUB\n")
    "NEWPRIV" "NEWPUB" (by rfl), ?_, ?_⟩
  · exact c3_key_consistency.2.1 (List domain.Config) kernelRepo [] "NEWPRIV" "NEWPUB"
      ["10.0.0.2/32"] "PSK" 25 _ _ _ (by rfl)
  · exact c3_key_consistency.2.2.2.1 (List domain.Config) kernelRepo
      [{ publicKey := "OLD", preSharedKey := "OLDPSK", allowedIps := ["10.9.0.2/32"],
         persistentKeepalive := 15 }]
      "NEWPRIV" "NEWPUB" "OLD" _ _ _ (by rfl)

/-- C4: dump-parsed records never carry a private key; after a create (and a
rotate) the stored kernel record read back by GET has the same allowedIps,
preSharedKey and persistentKeepalive as the response and an EMPTY privateKey,
and the listed state keeps every record private-key-free. -/
theorem c4_get_after_create_empty_private_key :
    (∀ (b : Bool) (lines : List (List Char)) (c : domain.Config),
      c ∈ WGRepository.parseLines b lines → c.privateKey = "") ∧
    (∀ (s : List domain.Config) (priv pub : String) (ips : List String) (psk : String)
      (ka : Int) (s1 : List domain.Config) (R : domain.Config),
      ConfigService.CreateWithNewKeys kernelRepo s (.ok (priv, pub)) ips psk ka =
        (s1, some R, none) →
      pub ≠ "" →
      (∃ c, ConfigHandler.GetConfig kernelRepo s1 (.ok ⟨R.publicKey⟩) = (200, .cfg c) ∧
        c.privateKey = "" ∧ c.allowedIps = R.allowedIps ∧ c.preSharedKey = R.preSharedKey ∧
        c.persistentKeepalive = R.persistentKeepalive) ∧
      ((∀ c ∈ s, c.privateKey = "") → ∀ c ∈ s1, c.privateKey = "")) ∧
    (∀ (s : List domain.Config) (priv pub oldKey : String) (s2 : List domain.Config)
      (R : domain.Config) (oldCfg : domain.Config),
      kGetConfig s oldKey = .ok oldCfg →
      ConfigService.RotatePeerKey kernelRepo s (.ok (priv, pub)) oldKey = (s2, some R, none) →
      pub ≠ "" → pub ≠ oldKey →
      ∃ c, ConfigHandler.GetConfig kernelRepo s2 (.ok ⟨pub⟩) = (200, .cfg c) ∧
        c.privateKey = "" ∧ c.allowedIps = R.allowedIps ∧ c.preSharedKey = R.preSharedKey ∧
        c.persistentKeepalive = R.persistentKeepalive) := by
  refine ⟨fun b lines c hc => parseLines_privateKey lines b c hc, ?_, ?_⟩
  · intro s priv pub ips psk ka s1 R h hpub
    rw [CreateWithNewKeys_kernel] at h
    simp only [Prod.mk.injEq, Option.some.injEq] at h
    obtain ⟨hs1, hR, -⟩ := h
    constructor
    · refine ⟨ConfigService.createRepoPeerCfg pub ips psk ka, ?_, rfl, ?_, ?_, ?_⟩
      · have hk : R.publicKey = pub := by rw [← hR]
        rw [hk, ← hs1]
        exact GetConfig_handler_ok _ pub _ (kGet_kCreate_self s _ hpub) hpub
      · rw [← hR]; rfl
      · rw [← hR]; rfl
      · rw [← hR]; rfl
    · intro hall c hc
      rw [← hs1] at hc
      rcases mem_kCreate s _ c hc with hm | hm
      · exact hall c hm
      · rw [hm]; rfl
  · intro s priv pub oldKey s2 R oldCfg hold h hpub hne
    have h0 := kGet_ok_key_ne_empty s oldKey oldCfg hold
    rw [RotatePeerKey_kernel_ok s oldKey oldCfg priv pub hold h0] at h
    simp only [Prod.mk.injEq, Option.some.injEq] at h
    obtain ⟨hs2, hR, -⟩ := h
    refine ⟨ConfigService.rotateRepoPeerCfg pub oldCfg, ?_, rfl, ?_, ?_, ?_⟩
    · rw [← hs2]
      refine GetConfig_handler_ok _ pub _ ?_ hpub
      rw [kGet_kDelete_other _ pub oldKey hne]
      exact kGet_kCreate_self s _ hpub
    · rw [← hR]; rfl
    · rw [← hR]; rfl
    · rw [← hR]; rfl

/-- A dump text made of lines: the lines interleaved with single newlines. -/
def joinLines : List (List Char) → List Char
  | [] => []
  | [l] => l
  | l :: rest => l ++ '\n' :: joinLines rest

theorem splitOnChar_ne_nil (sep : Char) (l : List Char) : splitOnChar sep l ≠ [] := by
  induction l with
  | nil => simp [splitOnChar]
  | cons c cs ih =>
    by_cases h : c = sep
    · simp [splitOnChar, h]
    · cases hs : splitOnChar sep cs with
      | nil => simp [splitOnChar, h, hs]
      | cons w ws => simp [splitOnChar, h, hs]

theorem splitOnChar_no_sep_append (sep : Char) (l m : List Char) (h : sep ∉ l) :
    splitOnChar sep (l ++ m) =
      (l ++ (splitOnChar sep m).headD []) :: (splitOnChar sep m).tail := by
  induction l with
  | nil =>
    simp only [List.nil_append]
    cases hs : splitOnChar sep m with
    | nil => exact absurd hs (splitOnChar_ne_nil sep m)
    | cons w ws => simp
  | cons c cs ih =>
    have hc : ¬ c = sep := fun he => h (he ▸ List.mem_cons_self c cs)
    have hcs : sep ∉ cs := fun hm => h (List.mem_cons_of_mem c hm)
    show splitOnChar sep (c :: (cs ++ m)) = _
    simp only [splitOnChar, if_neg hc]
    rw [ih hcs]
    rfl

theorem splitOnChar_joinLines (ls : List (List Char)) (hne : ls ≠ [])
    (h : ∀ l ∈ ls, '\n' ∉ l) : splitOnChar '\n' (joinLines ls) = ls := by
  induction ls with
  | nil => exact absurd rfl hne
  | cons l rest ih =>
    cases rest with
    | nil =>
      have hl : '\n' ∉ l := h l (by simp)
      have hs := splitOnChar_no_sep_append '\n' l [] hl
      simpa [joinLines, splitOnChar] using hs
    | cons l2 rest2 =>
      have hl : '\n' ∉ l := h l (by simp)
      have hjoin : joinLines (l :: l2 :: rest2) = l ++ '\n' :: joinLines (l2 :: rest2) := rfl
      rw [hjoin, splitOnChar_no_sep_append '\n' l ('\n' :: joinLines (l2 :: rest2)) hl]
      have hsep : splitOnChar '\n' ('\n' :: joinLines (l2 :: rest2)) =
          [] :: splitOnChar '\n' (joinLines (l2 :: rest2)) := by
        simp [splitOnChar]
      rw [hsep, ih (by simp) (fun x hx => h x (List.mem_cons_of_mem l hx))]
      simp

theorem goFields_nil : goFields [] = [] := rfl

theorem parseLines_wf_map (ls : List (List Char))
    (h : ∀ l ∈ ls, (goFields l).length = 8) :
    WGRepository.parseLines false ls = ls.map WGRepository.parsePeerLine := by
  induction ls with
  | nil => rfl
  | cons l rest ih =>
    have h8 := h l (by simp)
    have hl : l ≠ [] := by
      intro he; rw [he, goFields_nil] at h8; simp at h8
    simp only [WGRepository.parseLines, if_neg hl, List.map_cons]
    rw [if_neg (by simp), if_neg (by omega)]
    rw [ih (fun x hx => h x (List.mem_cons_of_mem l hx))]

theorem parseLines_skips_header (header : List Char) (rest : List (List Char))
    (hh : (goFields header).length = 4) :
    WGRepository.parseLines true (header :: rest) = WGRepository.parseLines false rest := by
  have hl : header ≠ [] := by
    intro he; rw [he, goFields_nil] at hh; simp at hh
  simp only [WGRepository.parseLines, if_neg hl]
  rw [if_pos ⟨trivial, by omega⟩]

/-- C7: a dump text consisting of the 4-field interface header line followed
by N well-formed 8-field peer lines parses to exactly the N peers, one per
peer line, with the header never yielding a peer; `(none)` in the
preshared-key / endpoint position parses to the empty string, `(none)` in the
allowed-ips position to the empty sequence, and `off` in the keepalive
position to 0. -/
theorem c7_dump_roundtrip (header : List Char) (peerLines : List (List Char))
    (hh : (goFields header).length = 4)
    (hp : ∀ l ∈ peerLines, (goFields l).length = 8)
    (hnl : ∀ l ∈ header :: peerLines, '\n' ∉ l)
    (htrim : trimChars (joinLines (header :: peerLines)) = joinLines (header :: peerLines)) :
    WGRepository.ListConfigs (String.mk (joinLines (header :: peerLines))) =
      peerLines.map WGRepository.parsePeerLine ∧
    (WGRepository.ListConfigs (String.mk (joinLines (header :: peerLines)))).length =
      peerLines.length ∧
    (∀ line : List Char,
      ((goFields line).getD 1 [] = "(none)".data →
        (WGRepository.parsePeerLine line).preSharedKey = "") ∧
      ((goFields line).getD 2 [] = "(none)".data →
        (WGRepository.parsePeerLine line).endpoint = "") ∧
      ((goFields line).getD 3 [] = "(none)".data →
        (WGRepository.parsePeerLine line).allowedIps = []) ∧
      ((goFields line).getD 7 [] = "off".data →
        (WGRepository.parsePeerLine line).persistentKeepalive = 0)) := by
  have hhne : header ≠ [] := by
    intro he; rw [he, goFields_nil] at hh; simp at hh
  have hjne : joinLines (header :: peerLines) ≠ [] := by
    cases peerLines with
    | nil => exact hhne
    | cons a b => simp [joinLines]
  have hlist : WGRepository.ListConfigs (String.mk (joinLines (header :: peerLines))) =
      peerLines.map WGRepository.parsePeerLine := by
    simp only [WGRepository.ListConfigs, htrim, if_neg hjne]
    rw [splitOnChar_joinLines (header :: peerLines) (by simp) hnl]
    rw [parseLines_skips_header header peerLines hh]
    exact parseLines_wf_map peerLines hp
  refine ⟨hlist, ?_, ?_⟩
  · rw [hlist, List.length_map]
  intro line
  refine ⟨fun h => ?_, fun h => ?_, fun h => ?_, fun h => ?_⟩
  · show (if (goFields line).getD 1 [] = "(none)".data then ""
        else String.mk ((goFields line).getD 1 [])) = ""
    rw [if_pos h]
  · show (if (goFields line).getD 2 [] = "(none)".data then ""
        else String.mk ((goFields line).getD 2 [])) = ""
    rw [if_pos h]
  · show (if (goFields line).getD 3 [] ≠ "(none)".data then
        (splitOnChar ',' ((goFields line).getD 3 [])).map String.mk else []) = []
    rw [if_neg (not_not_intro h)]
  · show (if (goFields line).getD 7 [] ≠ "off".data then
        (parseIntChars ((goFields line).getD 7 [])).getD 0 else 0) = 0
    rw [if_neg (not_not_intro h)]

/-- C7 witness: a concrete dump with the interface header and two peer lines,
one of them using every `(none)` / `off` placeholder. -/
theorem c7_witness :
    WGRepository.ListConfigs (String.mk (joinLines
        ["PRIVKEYX PUBKEYX 51820 off".data,
         "PK1 (none) (none) (none) 0 0 0 off".data,
         "PK2 PSK2 1.2.3.4:51820 10.0.0.2/32,10.0.0.3/32 1700000000 123 456 25".data])) =
      [WGRepository.parsePeerLine "PK1 (none) (none) (none) 0 0 0 off".data,
       WGRepository.parsePeerLine
         "PK2 PSK2 1.2.3.4:51820 10.0.0.2/32,10.0.0.3/32 1700000000 123 456 25".data] ∧
    (WGRepository.ListConfigs (String.mk (joinLines
        ["PRIVKEYX PUBKEYX 51820 off".data,
         "PK1 (none) (none) (none) 0 0 0 off".data,
         "PK2 PSK2 1.2.3.4:51820 10.0.0.2/32,10.0.0.3/32 1700000000 123 456 25".data]))).length
      = 2 ∧
    (∀ line : List Char,
      ((goFields line).getD 1 [] = "(none)".data →
        (WGRepository.parsePeerLine line).preSharedKey = "") ∧
      ((goFields line).getD 2 [] = "(none)".data →
        (WGRepository.parsePeerLine line).endpoint = "") ∧
      ((goFields line).getD 3 [] = "(none)".data →
        (WGRepository.parsePeerLine line).allowedIps = []) ∧
      ((goFields line).getD 7 [] = "off".data →
        (WGRepository.parsePeerLine line).persistentKeepalive = 0)) := by
  exact c7_dump_roundtrip "PRIVKEYX PUBKEYX 51820 off".data
    ["PK1 (none) (none) (none) 0 0 0 off".data,
     "PK2 PSK2 1.2.3.4:51820 10.0.0.2/32,10.0.0.3/32 1700000000 123 456 25".data]
    (by decide) (by decide) (by decide) (by decide)

theorem append_take_ne {p q x y : String} (n : Nat)
    (hp : n ≤ p.data.length) (hq : n ≤ q.data.length)
    (h : p.data.take n ≠ q.data.take n) : p ++ x ≠ q ++ y := by
  intro he
  have hd : p.data ++ x.data = q.data ++ y.data := by
    rw [← String.data_append, ← String.data_append, he]
  have h2 := congrArg (List.take n) hd
  rw [List.take_append_of_le_length hp, List.take_append_of_le_length hq] at h2
  exact h h2

theorem const_append_take_ne {c q y : String} (n : Nat)
    (hq : n ≤ q.data.length) (h : c.data.take n ≠ q.data.take n) : c ≠ q ++ y := by
  intro he
  have hd : c.data = q.data ++ y.data := by rw [he, String.data_append]
  have h2 := congrArg (List.take n) hd
  rw [List.take_append_of_le_length hq] at h2
  exact h h2

theorem mem_buildChunks_iff (dns : List String) (spub sep : String) (mtu : Nat)
    (cfg : domain.Config) (cpk : String) (x : String) :
    x ∈ ConfigService.BuildClientConfigChunks dns spub sep mtu cfg cpk ↔
      (x = "[Interface]\n" ∨ x = "PrivateKey = " ++ cpk ++ "\n" ∨
      (cfg.allowedIps.length > 0 ∧ x = "Address = " ++ cfg.allowedIps.headD "" ++ "\n") ∨
      (dns.length > 0 ∧ x = "DNS = " ++ String.intercalate ", " dns ++ "\n") ∨
      (mtu > 0 ∧ x = "MTU = " ++ toString mtu ++ "\n") ∨
      x = "\n" ∨ x = "[Peer]\n" ∨ x = "PublicKey = " ++ spub ++ "\n" ∨
      (sep ≠ "" ∧ x = "Endpoint = " ++ sep ++ "\n") ∨
      (cfg.preSharedKey ≠ "" ∧ x = "PresharedKey = " ++ cfg.preSharedKey ++ "\n") ∨
      x = "AllowedIPs = 0.0.0.0/0, ::/0\n" ∨
      (cfg.persistentKeepalive > 0 ∧
        x = "PersistentKeepalive = " ++ toString cfg.persistentKeepalive ++ "\n")) := by
  simp only [ConfigService.BuildClientConfigChunks]
  split_ifs <;>
    simp [*, List.mem_append, List.mem_cons, or_assoc]

theorem address_chunk_iff (dns : List String) (spub sep : String) (mtu : Nat)
    (cfg : domain.Config) (cpk : String) :
    (∃ v, "Address = " ++ v ∈ ConfigService.BuildClientConfigChunks dns spub sep mtu cfg cpk) ↔
      cfg.allowedIps ≠ [] := by
  constructor
  · rintro ⟨v, hv⟩
    rcases (mem_buildChunks_iff dns spub sep mtu cfg cpk _).1 hv with
      h|h|⟨hc,-⟩|⟨-,h⟩|⟨-,h⟩|h|h|h|⟨-,h⟩|⟨-,h⟩|h|⟨-,h⟩
    · exact absurd h (Ne.symm (const_append_take_ne 3 (by decide) (by decide)))
    · rw [String.append_assoc] at h
      exact absurd h (append_take_ne 3 (by decide) (by decide) (by decide))
    · exact List.length_pos.mp hc
    · rw [String.append_assoc] at h
      exact absurd h (append_take_ne 3 (by decide) (by decide) (by decide))
    · rw [String.append_assoc] at h
      exact absurd h (append_take_ne 3 (by decide) (by decide) (by decide))
    · exact absurd h (Ne.symm (const_append_take_ne 1 (by decide) (by decide)))
    · exact absurd h (Ne.symm (const_append_take_ne 3 (by decide) (by decide)))
    · rw [String.append_assoc] at h
      exact absurd h (append_take_ne 3 (by decide) (by decide) (by decide))
    · rw [String.append_assoc] at h
      exact absurd h (append_take_ne 3 (by decide) (by decide) (by decide))
    · rw [String.append_assoc] at h
      exact absurd h (append_take_ne 3 (by decide) (by decide) (by decide))
    · exact absurd h (Ne.symm (const_append_take_ne 3 (by decide) (by decide)))
    · rw [String.append_assoc] at h
      exact absurd h (append_take_ne 3 (by decide) (by decide) (by decide))
  · intro hm
    refine ⟨cfg.allowedIps.headD "" ++ "\n",
      (mem_buildChunks_iff dns spub sep mtu cfg cpk _).2 ?_⟩
    exact Or.inr (Or.inr (Or.inl ⟨List.length_pos.mpr hm, (String.append_assoc _ _ _).symm⟩))

theorem dns_chunk_iff (dns : List String) (spub sep : String) (mtu : Nat)
    (cfg : domain.Config) (cpk : String) :
    (∃ v, "DNS = " ++ v ∈ ConfigService.BuildClientConfigChunks dns spub sep mtu cfg cpk) ↔
      dns ≠ [] := by
  constructor
  · rintro ⟨v, hv⟩
    rcases (mem_buildChunks_iff dns spub sep mtu cfg cpk _).1 hv with
      h|h|⟨-,h⟩|⟨hc,-⟩|⟨-,h⟩|h|h|h|⟨-,h⟩|⟨-,h⟩|h|⟨-,h⟩
    · exact absurd h (Ne.symm (const_append_take_ne 3 (by decide) (by decide)))
    · rw [String.append_assoc] at h
      exact absurd h (append_take_ne 3 (by decide) (by decide) (by decide))
    · rw [String.append_assoc] at h
      exact absurd h (append_take_ne 3 (by decide) (by decide) (by decide))
    · exact List.length_pos.mp hc
    · rw [String.append_assoc] at h
      exact absurd h (append_take_ne 3 (by decide) (by decide) (by decide))
    · exact absurd h (Ne.symm (const_append_take_ne 1 (by decide) (by decide)))
    · exact absurd h (Ne.symm (const_append_take_ne 3 (by decide) (by decide)))
    · rw [String.append_assoc] at h
      exact absurd h (append_take_ne 3 (by decide) (by decide) (by decide))
    · rw [String.append_assoc] at h
      exact absurd h (append_take_ne 3 (by decide) (by decide) (by decide))
    · rw [String.append_assoc] at h
      exact absurd h (append_take_ne 3 (by decide) (by decide) (by decide))
    · exact absurd h (Ne.symm (const_append_take_ne 3 (by decide) (by decide)))
    · rw [String.append_assoc] at h
      exact absurd h (append_take_ne 3 (by decide) (by decide) (by decide))
  · intro hm
    refine ⟨String.intercalate ", " dns ++ "\n",
      (mem_buildChunks_iff dns spub sep mtu cfg cpk _).2 ?_⟩
    exact Or.inr (Or.inr (Or.inr (Or.inl
      ⟨List.length_pos.mpr hm, (String.append_assoc _ _ _).symm⟩)))

theorem mtu_chunk_iff (dns : List String) (spub sep : String) (mtu : Nat)
    (cfg : domain.Config) (cpk : String) :
    (∃ v, "MTU = " ++ v ∈ ConfigService.BuildClientConfigChunks dns spub sep mtu cfg cpk) ↔
      mtu ≠ 0 := by
  constructor
  · rintro ⟨v, hv⟩
    rcases (mem_buildChunks_iff dns spub sep mtu cfg cpk _).1 hv with
      h|h|⟨-,h⟩|⟨-,h⟩|⟨hc,-⟩|h|h|h|⟨-,h⟩|⟨-,h⟩|h|⟨-,h⟩
    · exact absurd h (Ne.symm (const_append_take_ne 3 (by decide) (by decide)))
    · rw [String.append_assoc] at h
      exact absurd h (append_take_ne 3 (by decide) (by decide) (by decide))
    · rw [String.append_assoc] at h
      exact absurd h (append_take_ne 3 (by decide) (by decide) (by decide))
    · rw [String.append_assoc] at h
      exact absurd h (append_take_ne 3 (by decide) (by decide) (by decide))
    · exact Nat.pos_iff_ne_zero.mp hc
    · exact absurd h (Ne.symm (const_append_take_ne 1 (by decide) (by decide)))
    · exact absurd h (Ne.symm (const_append_take_ne 3 (by decide) (by decide)))
    · rw [String.append_assoc] at h
      exact absurd h (append_take_ne 3 (by decide) (by decide) (by decide))
    · rw [String.append_assoc] at h
      exact absurd h (append_take_ne 3 (by decide) (by decide) (by decide))
    · rw [String.append_assoc] at h
      exact absurd h (append_take_ne 3 (by decide) (by decide) (by decide))
    · exact absurd h (Ne.symm (const_append_take_ne 3 (by decide) (by decide)))
    · rw [String.append_assoc] at h
      exact absurd h (append_take_ne 3 (by decide) (by decide) (by decide))
  · intro hm
    refine ⟨toString mtu ++ "\n", (mem_buildChunks_iff dns spub sep mtu cfg cpk _).2 ?_⟩
    exact Or.inr (Or.inr (Or.inr (Or.inr (Or.inl
      ⟨Nat.pos_of_ne_zero hm, (String.append_assoc _ _ _).symm⟩))))

theorem endpoint_chunk_iff (dns : List String) (spub sep : String) (mtu : Nat)
    (cfg : domain.Config) (cpk : String) :
    (∃ v, "Endpoint = " ++ v ∈ ConfigService.BuildClientConfigChunks dns spub sep mtu cfg cpk) ↔
      sep ≠ "" := by
  constructor
  · rintro ⟨v, hv⟩
    rcases (mem_buildChunks_iff dns spub sep mtu cfg cpk _).1 hv with
      h|h|⟨-,h⟩|⟨-,h⟩|⟨-,h⟩|h|h|h|⟨hc,-⟩|⟨-,h⟩|h|⟨-,h⟩
    · exact absurd h (Ne.symm (const_append_take_ne 3 (by decide) (by decide)))
    · rw [String.append_assoc] at h
      exact absurd h (append_take_ne 3 (by decide) (by decide) (by decide))
    · rw [String.append_assoc] at h
      exact absurd h (append_take_ne 3 (by decide) (by decide) (by decide))
    · rw [String.append_assoc] at h
      exact absurd h (append_take_ne 3 (by decide) (by decide) (by decide))
    · rw [String.append_assoc] at h
      exact absurd h (append_take_ne 3 (by decide) (by decide) (by decide))
    · exact absurd h (Ne.symm (const_append_take_ne 1 (by decide) (by decide)))
    · exact absurd h (Ne.symm (const_append_take_ne 3 (by decide) (by decide)))
    · rw [String.append_assoc] at h
      exact absurd h (append_take_ne 3 (by decide) (by decide) (by decide))
    · exact hc
    · rw [String.append_assoc] at h
      exact absurd h (append_take_ne 3 (by decide) (by decide) (by decide))
    · exact absurd h (Ne.symm (const_append_take_ne 3 (by decide) (by decide)))
    · rw [String.append_assoc] at h
      exact absurd h (append_take_ne 3 (by decide) (by decide) (by decide))
  · intro hm
    refine ⟨sep ++ "\n", (mem_buildChunks_iff dns spub sep mtu cfg cpk _).2 ?_⟩
    exact Or.inr (Or.inr (Or.inr (Or.inr (Or.inr (Or.inr (Or.inr (Or.inr (Or.inl
      ⟨hm, (String.append_assoc _ _ _).symm⟩))))))))

theorem psk_chunk_iff (dns : List String) (spub sep : String) (mtu : Nat)
    (cfg : domain.Config) (cpk : String) :
    (∃ v, "PresharedKey = " ++ v ∈
        ConfigService.BuildClientConfigChunks dns spub sep mtu cfg cpk) ↔
      cfg.preSharedKey ≠ "" := by
  constructor
  · rintro ⟨v, hv⟩
    rcases (mem_buildChunks_iff dns spub sep mtu cfg cpk _).1 hv with
      h|h|⟨-,h⟩|⟨-,h⟩|⟨-,h⟩|h|h|h|⟨-,h⟩|⟨hc,-⟩|h|⟨-,h⟩
    · exact absurd h (Ne.symm (const_append_take_ne 3 (by decide) (by decide)))
    · rw [String.append_assoc] at h
      exact absurd h (append_take_ne 3 (by decide) (by decide) (by decide))
    · rw [String.append_assoc] at h
      exact absurd h (append_take_ne 3 (by decide) (by decide) (by decide))
    · rw [String.append_assoc] at h
      exact absurd h (append_take_ne 3 (by decide) (by decide) (by decide))
    · rw [String.append_assoc] at h
      exact absurd h (append_take_ne 3 (by decide) (by decide) (by decide))
    · exact absurd h (Ne.symm (const_append_take_ne 1 (by decide) (by decide)))
    · exact absurd h (Ne.symm (const_append_take_ne 3 (by decide) (by decide)))
    · rw [String.append_assoc] at h
      exact absurd h (append_take_ne 3 (by decide) (by decide) (by decide))
    · rw [String.append_assoc] at h
      exact absurd h (append_take_ne 3 (by decide) (by decide) (by decide))
    · exact hc
    · exact absurd h (Ne.symm (const_append_take_ne 3 (by decide) (by decide)))
    · rw [String.append_assoc] at h
      exact absurd h (append_take_ne 3 (by decide) (by decide) (by decide))
  · intro hm
    refine ⟨cfg.preSharedKey ++ "\n", (mem_buildChunks_iff dns spub sep mtu cfg cpk _).2 ?_⟩
    exact Or.inr (Or.inr (Or.inr (Or.inr (Or.inr (Or.inr (Or.inr (Or.inr (Or.inr (Or.inl
      ⟨hm, (String.append_assoc _ _ _).symm⟩)))))))))

theorem keepalive_chunk_iff (dns : List String) (spub sep : String) (mtu : Nat)
    (cfg : domain.Config) (cpk : String) (hka : 0 ≤ cfg.persistentKeepalive) :
    (∃ v, "PersistentKeepalive = " ++ v ∈
        ConfigService.BuildClientConfigChunks dns spub sep mtu cfg cpk) ↔
      cfg.persistentKeepalive ≠ 0 := by
  constructor
  · rintro ⟨v, hv⟩
    rcases (mem_buildChunks_iff dns spub sep mtu cfg cpk _).1 hv with
      h|h|⟨-,h⟩|⟨-,h⟩|⟨-,h⟩|h|h|h|⟨-,h⟩|⟨-,h⟩|h|⟨hc,-⟩
    · exact absurd h (Ne.symm (const_append_take_ne 3 (by decide) (by decide)))
    · rw [String.append_assoc] at h
      exact absurd h (append_take_ne 3 (by decide) (by decide) (by decide))
    · rw [String.append_assoc] at h
      exact absurd h (append_take_ne 3 (by decide) (by decide) (by decide))
    · rw [String.append_assoc] at h
      exact absurd h (append_take_ne 3 (by decide) (by decide) (by decide))
    · rw [String.append_assoc] at h
      exact absurd h (append_take_ne 3 (by decide) (by decide) (by decide))
    · exact absurd h (Ne.symm (const_append_take_ne 1 (by decide) (by decide)))
    · exact absurd h (Ne.symm (const_append_take_ne 3 (by decide) (by decide)))
    · rw [String.append_assoc] at h
      exact absurd h (append_take_ne 3 (by decide) (by decide) (by decide))
    · rw [String.append_assoc] at h
      exact absurd h (append_take_ne 3 (by decide) (by decide) (by decide))
    · rw [String.append_assoc] at h
      exact absurd h (append_take_ne 3 (by decide) (by decide) (by decide))
    · exact absurd h (Ne.symm (const_append_take_ne 3 (by decide) (by decide)))
    · exact ne_of_gt hc
  · intro hm
    refine ⟨toString cfg.persistentKeepalive ++ "\n",
      (mem_buildChunks_iff dns spub sep mtu cfg cpk _).2 ?_⟩
    exact Or.inr (Or.inr (Or.inr (Or.inr (Or.inr (Or.inr (Or.inr (Or.inr (Or.inr (Or.inr
      (Or.inr ⟨lt_of_le_of_ne hka (Ne.symm hm), (String.append_assoc _ _ _).symm⟩))))))))))

/-- C6: the client config artifact is the fixed chunk sequence: the
`[Interface]` part carries the caller-supplied private key always, the
`Address` line (equal to the first allowed-ips entry) exactly when the list is
non-empty, the `DNS` line exactly when DNS servers are configured and the
`MTU` line exactly when the configured MTU is non-zero; the `[Peer]` part
carries the server public key always, the `Endpoint` line exactly when the
endpoint is configured, the `PresharedKey` line exactly when the peer has one,
the literal `AllowedIPs = 0.0.0.0/0, ::/0` line always, and the
`PersistentKeepalive` line exactly when the keepalive is non-zero; omitted
fields produce no line at all.  The MTU parameter is modelled from the spec
(see `ConfigService.BuildClientConfigChunks`); keepalive values come from dump
parsing and are non-negative. -/
theorem c6_client_config_lines (dns : List String) (spub sep : String) (mtu : Nat)
    (cfg : domain.Config) (cpk : String)
    (hcpk : cpk ≠ "") (hpub : cfg.publicKey ≠ "") (hka : 0 ≤ cfg.persistentKeepalive) :
    ConfigService.BuildClientConfig dns spub sep mtu cfg cpk =
      .ok (String.join (ConfigService.BuildClientConfigChunks dns spub sep mtu cfg cpk)) ∧
    "PrivateKey = " ++ cpk ++ "\n" ∈
      ConfigService.BuildClientConfigChunks dns spub sep mtu cfg cpk ∧
    "PublicKey = " ++ spub ++ "\n" ∈
      ConfigService.BuildClientConfigChunks dns spub sep mtu cfg cpk ∧
    "AllowedIPs = 0.0.0.0/0, ::/0\n" ∈
      ConfigService.BuildClientConfigChunks dns spub sep mtu cfg cpk ∧
    ((∃ v, "Address = " ++ v ∈
        ConfigService.BuildClientConfigChunks dns spub sep mtu cfg cpk) ↔
      cfg.allowedIps ≠ []) ∧
    (cfg.allowedIps ≠ [] → "Address = " ++ cfg.allowedIps.headD "" ++ "\n" ∈
      ConfigService.BuildClientConfigChunks dns spub sep mtu cfg cpk) ∧
    ((∃ v, "DNS = " ++ v ∈
        ConfigService.BuildClientConfigChunks dns spub sep mtu cfg cpk) ↔ dns ≠ []) ∧
    (dns ≠ [] → "DNS = " ++ String.intercalate ", " dns ++ "\n" ∈
      ConfigService.BuildClientConfigChunks dns spub sep mtu cfg cpk) ∧
    ((∃ v, "MTU = " ++ v ∈
        ConfigService.BuildClientConfigChunks dns spub sep mtu cfg cpk) ↔ mtu ≠ 0) ∧
    (mtu ≠ 0 → "MTU = " ++ toString mtu ++ "\n" ∈
      ConfigService.BuildClientConfigChunks dns spub sep mtu cfg cpk) ∧
    ((∃ v, "Endpoint = " ++ v ∈
        ConfigService.BuildClientConfigChunks dns spub sep mtu cfg cpk) ↔ sep ≠ "") ∧
    (sep ≠ "" → "Endpoint = " ++ sep ++ "\n" ∈
      ConfigService.BuildClientConfigChunks dns spub sep mtu cfg cpk) ∧
    ((∃ v, "PresharedKey = " ++ v ∈
        ConfigService.BuildClientConfigChunks dns spub sep mtu cfg cpk) ↔
      cfg.preSharedKey ≠ "") ∧
    (cfg.preSharedKey ≠ "" → "PresharedKey = " ++ cfg.preSharedKey ++ "\n" ∈
      ConfigService.BuildClientConfigChunks dns spub sep mtu cfg cpk) ∧
    ((∃ v, "PersistentKeepalive = " ++ v ∈
        ConfigService.BuildClientConfigChunks dns spub sep mtu cfg cpk) ↔
      cfg.persistentKeepalive ≠ 0) ∧
    (cfg.persistentKeepalive ≠ 0 →
      "PersistentKeepalive = " ++ toString cfg.persistentKeepalive ++ "\n" ∈
        ConfigService.BuildClientConfigChunks dns spub sep mtu cfg cpk) := by
  refine ⟨?_, ?_, ?_, ?_,
    address_chunk_iff dns spub sep mtu cfg cpk, fun h => ?_,
    dns_chunk_iff dns spub sep mtu cfg cpk, fun h => ?_,
    mtu_chunk_iff dns spub sep mtu cfg cpk, fun h => ?_,
    endpoint_chunk_iff dns spub sep mtu cfg cpk, fun h => ?_,
    psk_chunk_iff dns spub sep mtu cfg cpk, fun h => ?_,
    keepalive_chunk_iff dns spub sep mtu cfg cpk hka, fun h => ?_⟩
  · simp only [ConfigService.BuildClientConfig, if_neg hcpk, if_neg hpub]
  · exact (mem_buildChunks_iff dns spub sep mtu cfg cpk _).2 (Or.inr (Or.inl rfl))
  · exact (mem_buildChunks_iff dns spub sep mtu cfg cpk _).2
      (Or.inr (Or.inr (Or.inr (Or.inr (Or.inr (Or.inr (Or.inr (Or.inl rfl))))))))
  · exact (mem_buildChunks_iff dns spub sep mtu cfg cpk _).2
      (Or.inr (Or.inr (Or.inr (Or.inr (Or.inr (Or.inr (Or.inr (Or.inr (Or.inr (Or.inr
        (Or.inl rfl)))))))))))
  · exact (mem_buildChunks_iff dns spub sep mtu cfg cpk _).2
      (Or.inr (Or.inr (Or.inl ⟨List.length_pos.mpr h, rfl⟩)))
  · exact (mem_buildChunks_iff dns spub sep mtu cfg cpk _).2
      (Or.inr (Or.inr (Or.inr (Or.inl ⟨List.length_pos.mpr h, rfl⟩))))
  · exact (mem_buildChunks_iff dns spub sep mtu cfg cpk _).2
      (Or.inr (Or.inr (Or.inr (Or.inr (Or.inl ⟨Nat.pos_of_ne_zero h, rfl⟩)))))
  · exact (mem_buildChunks_iff dns spub sep mtu cfg cpk _).2
      (Or.inr (Or.inr (Or.inr (Or.inr (Or.inr (Or.inr (Or.inr (Or.inr
        (Or.inl ⟨h, rfl⟩)))))))))
  · exact (mem_buildChunks_iff dns spub sep mtu cfg cpk _).2
      (Or.inr (Or.inr (Or.inr (Or.inr (Or.inr (Or.inr (Or.inr (Or.inr (Or.inr
        (Or.inl ⟨h, rfl⟩))))))))))
  · exact (mem_buildChunks_iff dns spub sep mtu cfg cpk _).2
      (Or.inr (Or.inr (Or.inr (Or.inr (Or.inr (Or.inr (Or.inr (Or.inr (Or.inr (Or.inr
        (Or.inr ⟨lt_of_le_of_ne hka (Ne.symm h), rfl⟩)))))))))))

/-- A concrete chunk sequence for exercising the client-config builder. -/
def sampleClientChunks : List String :=
  ConfigService.BuildClientConfigChunks ["1.1.1.1", "1.0.0.1"] "SPUB" "vpn.example.com:51820"
    1420 ⟨"", "CPK", "PSK", "", ["10.0.0.2/32"], 0, 0, 0, 25⟩ "CPRIV"

/-- C6 witness: the client-config line contract at a concrete fully populated
configuration. -/
theorem c6_witness :
    ConfigService.BuildClientConfig ["1.1.1.1", "1.0.0.1"] "SPUB" "vpn.example.com:51820" 1420
        ⟨"", "CPK", "PSK", "", ["10.0.0.2/32"], 0, 0, 0, 25⟩ "CPRIV" =
      .ok (String.join sampleClientChunks) ∧
    "PrivateKey = " ++ "CPRIV" ++ "\n" ∈ sampleClientChunks ∧
    "PublicKey = " ++ "SPUB" ++ "\n" ∈ sampleClientChunks ∧
    "AllowedIPs = 0.0.0.0/0, ::/0\n" ∈ sampleClientChunks ∧
    ((∃ v, "Address = " ++ v ∈ sampleClientChunks) ↔
      (["10.0.0.2/32"] : List String) ≠ []) ∧
    ((["10.0.0.2/32"] : List String) ≠ [] →
      "Address = " ++ (["10.0.0.2/32"] : List String).headD "" ++ "\n" ∈ sampleClientChunks) ∧
    ((∃ v, "DNS = " ++ v ∈ sampleClientChunks) ↔
      (["1.1.1.1", "1.0.0.1"] : List String) ≠ []) ∧
    ((["1.1.1.1", "1.0.0.1"] : List String) ≠ [] →
      "DNS = " ++ String.intercalate ", " ["1.1.1.1", "1.0.0.1"] ++ "\n" ∈
        sampleClientChunks) ∧
    ((∃ v, "MTU = " ++ v ∈ sampleClientChunks) ↔ (1420 : Nat) ≠ 0) ∧
    ((1420 : Nat) ≠ 0 → "MTU = " ++ toString (1420 : Nat) ++ "\n" ∈ sampleClientChunks) ∧
    ((∃ v, "Endpoint = " ++ v ∈ sampleClientChunks) ↔
      ("vpn.example.com:51820" : String) ≠ "") ∧
    (("vpn.example.com:51820" : String) ≠ "" →
      "Endpoint = " ++ "vpn.example.com:51820" ++ "\n" ∈ sampleClientChunks) ∧
    ((∃ v, "PresharedKey = " ++ v ∈ sampleClientChunks) ↔ ("PSK" : String) ≠ "") ∧
    (("PSK" : String) ≠ "" → "PresharedKey = " ++ "PSK" ++ "\n" ∈ sampleClientChunks) ∧
    ((∃ v, "PersistentKeepalive = " ++ v ∈ sampleClientChunks) ↔ (25 : Int) ≠ 0) ∧
    ((25 : Int) ≠ 0 →
      "PersistentKeepalive = " ++ toString (25 : Int) ++ "\n" ∈ sampleClientChunks) := by
  exact c6_client_config_lines ["1.1.1.1", "1.0.0.1"] "SPUB" "vpn.example.com:51820" 1420
    ⟨"", "CPK", "PSK", "", ["10.0.0.2/32"], 0, 0, 0, 25⟩ "CPRIV"
    (by decide) (by decide) (by decide)

/-- C4 witness: a concrete create followed by GET on the new key, and the
parser on a concrete dump line. -/
theorem c4_witness :
    (WGRepository.parsePeerLine "PK1 (none) (none) 10.0.0.2/32 0 0 0 off".data).privateKey
      = "" ∧
    (∃ c, ConfigHandler.GetConfig kernelRepo
        (ConfigService.CreateWithNewKeys kernelRepo [] (.ok ("NEWPRIV", "NEWPUB"))
          ["10.0.0.2/32"] "PSK" 25).1
        (.ok ⟨"NEWPUB"⟩) = (200, .cfg c) ∧
      c.privateKey = "" ∧ c.allowedIps = ["10.0.0.2/32"] ∧ c.preSharedKey = "PSK" ∧
      c.persistentKeepalive = 25) := by
  constructor
  · exact parsePeerLine_privateKey _
  · have h := (c4_get_after_create_empty_private_key.2.1 [] "NEWPRIV" "NEWPUB"
      ["10.0.0.2/32"] "PSK" 25 _
      ⟨"NEWPRIV", "NEWPUB", "PSK", "", ["10.0.0.2/32"], 0, 0, 0, 25⟩
      (by rfl) (by decide)).1
    exact h

end WgMicro
